import Mathlib

/-!
Verification of the AMM pricing and simulation core of the agent0 repository.

The development shallowly embeds, over the real numbers:
* the local fixed-rate solver math of
  `lib/agent0/agent0/hyperdrive/policies/lpandarb.py`
  (`calc_bond_reserves`, `calc_spot_price_local`, `calc_apr_local`,
  `calc_k_local`, `get_shares_in_for_bonds_out`,
  `get_shares_out_for_bonds_in`, `calc_reserves_to_hit_target_rate`), and
* the historical market simulator of `sim.py`
  (`Element_Pricing_Model`, `YieldsSpacev2_Pricing_model`,
  `YieldsSpacev2_Pricing_model_MinFee`, `Market`, `yieldSimulator`).

Python floats are modelled as real numbers, fractional powers as `Real.rpow`,
and the pseudo-random generator as an explicit stream of draws.
-/

open Real

noncomputable section

namespace LPandArb

/-- `TOLERANCE = 1e-18` from `lpandarb.py`. -/
def TOLERANCE : ℝ := 1e-18

/-- `MAX_ITER = 10` from `lpandarb.py`. -/
def MAX_ITER : ℕ := 10

/-- Embeds `calc_bond_reserves` of `lpandarb.py`:
`mu * (z - zeta) * (1 + apr * t) ** (1 / tau)`. -/
def calc_bond_reserves (share_reserves share_adjustment initial_share_price
    target_rate position_duration inverted_time_stretch : ℝ) : ℝ :=
  initial_share_price * (share_reserves - share_adjustment) *
    ((1 + target_rate * position_duration / (365 * 24 * 60 * 60)) ^ inverted_time_stretch)

/-- Embeds `calc_spot_price_local` of `lpandarb.py`. -/
def calc_spot_price_local (initial_share_price share_reserves share_adjustment
    bond_reserves time_stretch : ℝ) : ℝ :=
  (initial_share_price * (share_reserves - share_adjustment) / bond_reserves) ^ time_stretch

/-- Embeds `calc_apr_local` of `lpandarb.py`. -/
def calc_apr_local (share_reserves share_adjustment bond_reserves initial_share_price
    position_duration_seconds time_stretch : ℝ) : ℝ :=
  let annualized_time := position_duration_seconds / (365 * 24 * 60 * 60)
  let spot_price := calc_spot_price_local initial_share_price share_reserves
    share_adjustment bond_reserves time_stretch
  (1 - spot_price) / (spot_price * annualized_time)

/-- Embeds `calc_k_local` of `lpandarb.py`:
`(c / mu) * (mu * z) ** (1 - t) + y ** (1 - t)`. -/
def calc_k_local (share_price initial_share_price share_reserves bond_reserves
    time_stretch : ℝ) : ℝ :=
  (share_price / initial_share_price) * (initial_share_price * share_reserves) ^ (1 - time_stretch)
    + bond_reserves ^ (1 - time_stretch)

/-- Embeds `get_shares_in_for_bonds_out` of `lpandarb.py`; returns
`(amount_from_user_in_shares, curve_fee_amount_in_shares, gov_fee_amount_in_shares)`. -/
def get_shares_in_for_bonds_out (bond_reserves share_price initial_share_price
    share_reserves bonds_out time_stretch curve_fee gov_fee : ℝ) : ℝ × ℝ × ℝ :=
  let k_t := calc_k_local share_price initial_share_price share_reserves bond_reserves time_stretch
  let y_term := (bond_reserves - bonds_out) ^ (1 - time_stretch)
  let z_val := ((k_t - y_term) / (share_price / initial_share_price)) ^ (1 / (1 - time_stretch))
    / initial_share_price
  let spot_price := calc_spot_price_local initial_share_price share_reserves 0
    bond_reserves time_stretch
  let amount_in_shares := z_val - share_reserves
  let price_discount := 1 - spot_price
  let curve_fee_rate := price_discount * curve_fee
  let curve_fee_amount_in_shares := amount_in_shares * curve_fee_rate
  let gov_fee_amount_in_shares := curve_fee_amount_in_shares * gov_fee
  (amount_in_shares + curve_fee_amount_in_shares, curve_fee_amount_in_shares,
    gov_fee_amount_in_shares)

/-- Embeds `get_shares_out_for_bonds_in` of `lpandarb.py`; returns
`(amount_to_user_in_shares, curve_fee_amount_in_shares, gov_fee_amount_in_shares)`. -/
def get_shares_out_for_bonds_in (bond_reserves share_price initial_share_price
    share_reserves bonds_in time_stretch curve_fee gov_fee : ℝ) : ℝ × ℝ × ℝ :=
  let k_t := calc_k_local share_price initial_share_price share_reserves bond_reserves time_stretch
  let y_term := (bond_reserves + bonds_in) ^ (1 - time_stretch)
  let z_val := ((k_t - y_term) / (share_price / initial_share_price)) ^ (1 / (1 - time_stretch))
    / initial_share_price
  let spot_price := calc_spot_price_local initial_share_price share_reserves 0
    bond_reserves time_stretch
  let price_discount := 1 - spot_price
  let amount_in_shares := max 0 (share_reserves - z_val)
  let curve_fee_rate := price_discount * curve_fee
  let curve_fee_amount_in_shares := amount_in_shares * curve_fee_rate
  let gov_fee_amount_in_shares := curve_fee_amount_in_shares * gov_fee
  (amount_in_shares - curve_fee_amount_in_shares, curve_fee_amount_in_shares,
    gov_fee_amount_in_shares)

/-- The pool-config fields read by `calc_reserves_to_hit_target_rate`. -/
structure SolverConfig where
  initialSharePrice : ℝ
  positionDuration : ℝ
  timeStretch : ℝ
  invTimeStretch : ℝ
  curveFee : ℝ
  governanceFee : ℝ

/-- The pool-info fields read and written by `calc_reserves_to_hit_target_rate`. -/
structure SolverPoolInfo where
  shareReserves : ℝ
  shareAdjustment : ℝ
  bondReserves : ℝ
  sharePrice : ℝ

/-- One iteration body of the `while` loop of `calc_reserves_to_hit_target_rate`:
computes `target_bonds`, takes half the bond delta, simulates the share-side
trade via `get_shares_out_for_bonds_in` / `get_shares_in_for_bonds_out` and
updates the working `pool_info` copy. -/
def solverStep (cfg : SolverConfig) (target_rate : ℝ) (info : SolverPoolInfo) :
    SolverPoolInfo :=
  let target_bonds := calc_bond_reserves info.shareReserves info.shareAdjustment
    cfg.initialSharePrice target_rate cfg.positionDuration cfg.invTimeStretch
  let bonds_needed := (target_bonds - info.bondReserves) / 2
  let shareReserves' :=
    if 0 < bonds_needed then
      let r := get_shares_out_for_bonds_in info.bondReserves info.sharePrice
        cfg.initialSharePrice info.shareReserves bonds_needed cfg.timeStretch
        cfg.curveFee cfg.governanceFee
      info.shareReserves + (-r.1 - r.2.2)
    else
      let r := get_shares_in_for_bonds_out info.bondReserves info.sharePrice
        cfg.initialSharePrice info.shareReserves (-bonds_needed) cfg.timeStretch
        cfg.curveFee cfg.governanceFee
      info.shareReserves + (r.1 - r.2.2)
  { info with shareReserves := shareReserves', bondReserves := info.bondReserves + bonds_needed }

/-- The `predicted_rate` recomputed at the end of each solver iteration
(`calc_apr_local` with a zero share adjustment). -/
def solverPredictedRate (cfg : SolverConfig) (info : SolverPoolInfo) : ℝ :=
  calc_apr_local info.shareReserves 0 info.bondReserves cfg.initialSharePrice
    cfg.positionDuration cfg.timeStretch

/-- The `while float(abs(predicted_rate - target_rate)) > TOLERANCE` loop of
`calc_reserves_to_hit_target_rate`, with its `if iteration >= MAX_ITER: break`.
Returns the final working pool info, the final predicted rate and the number
of executed iterations. -/
def solverLoop (cfg : SolverConfig) (target_rate : ℝ) (info : SolverPoolInfo)
    (predicted_rate : ℝ) (iteration : ℕ) : SolverPoolInfo × ℝ × ℕ :=
  if |predicted_rate - target_rate| ≤ TOLERANCE then (info, predicted_rate, iteration)
  else
    let info' := solverStep cfg target_rate info
    let predicted' := solverPredictedRate cfg info'
    if MAX_ITER ≤ iteration + 1 then (info', predicted', iteration + 1)
    else solverLoop cfg target_rate info' predicted' (iteration + 1)
termination_by MAX_ITER - iteration
decreasing_by simp only [not_le] at *; omega

/-- Embeds `calc_reserves_to_hit_target_rate` of `lpandarb.py`: runs the
fixed-point loop starting from `predicted_rate = 0`, `iteration = 0` and
returns `(total_shares_needed, total_bonds_needed)`. -/
def calc_reserves_to_hit_target_rate (cfg : SolverConfig) (target_rate : ℝ)
    (info : SolverPoolInfo) : ℝ × ℝ :=
  let final := (solverLoop cfg target_rate info 0 0).1
  (final.shareReserves - info.shareReserves, final.bondReserves - info.bondReserves)

/-- A concrete pool config: `mu = 1`, one-year position duration,
`time_stretch = 1/2` (so `inv_time_stretch = 2`), zero fees. -/
def cfgX : SolverConfig := ⟨1, 31536000, 1/2, 2, 0, 0⟩

/-- A concrete pool snapshot: `z = 2`, `zeta = 1`, `y = 4`, `c = 1`.  For
target rate `1` the solver step is a no-op on this snapshot while the
predicted rate stays far from the target. -/
def infoX : SolverPoolInfo := ⟨2, 1, 4, 1⟩

end LPandArb

namespace Sim

/-- The two token kinds dispatched on by the pricing models of `sim.py`
(the Python code uses the strings `"base"` and `"fyt"`). -/
inductive Token
  | base
  | fyt

/-- The two trade directions of `Market.swap` (the Python code uses the
strings `"in"` and `"out"`). -/
inductive Direction
  | din
  | dout

/-- The tuple `(without_fee_or_slippage, with_fee, without_fee, fee)` returned
by `calc_in_given_out` / `calc_out_given_in` in `sim.py`. -/
structure Quote where
  without_fee_or_slippage : ℝ
  with_fee : ℝ
  without_fee : ℝ
  fee : ℝ

namespace Element_Pricing_Model

/-- `Element_Pricing_Model.model_name` of `sim.py`. -/
def model_name : String := "Element_Pricing_Model"

/-- `Element_Pricing_Model.calc_time_stretch` of `sim.py`. -/
def calc_time_stretch (apy : ℝ) : ℝ := 3.09396 / (0.02789 * apy)

/-- `Element_Pricing_Model.calc_spot_price` of `sim.py` (the Python default
arguments `u = 1`, `c = 1` are made explicit; both are unused). -/
def calc_spot_price (x_reserves y_reserves total_supply t u c : ℝ) : ℝ :=
  1 / ((y_reserves + total_supply) / x_reserves) ^ t

/-- `Element_Pricing_Model.apy` of `sim.py`. -/
def apy (price days_until_maturity : ℝ) : ℝ :=
  (1 - price) / price / (days_until_maturity / 365) * 100

/-- `Element_Pricing_Model.calc_spot_price_from_apy` of `sim.py`. -/
def calc_spot_price_from_apy (apy days_until_maturity : ℝ) : ℝ :=
  1 - apy * (days_until_maturity / 365) / 100

/-- `Element_Pricing_Model.calc_apy_from_reserves` of `sim.py` (calls
`calc_spot_price` with its Python defaults `u = 1`, `c = 1`). -/
def calc_apy_from_reserves (x_reserves y_reserves total_supply t t_stretch : ℝ) : ℝ :=
  apy (calc_spot_price x_reserves y_reserves total_supply t 1 1) (t * 365 * t_stretch)

/-- `Element_Pricing_Model.calc_x_reserves` of `sim.py`. -/
def calc_x_reserves (APY y_reserves days_until_maturity time_stretch : ℝ) : ℝ :=
  let t := days_until_maturity / (365 * time_stretch)
  let T := days_until_maturity / 365
  let r := APY / 100
  2 * y_reserves / ((-1 / (r * T - 1)) ^ (1 / t) - 1)

/-- `Element_Pricing_Model.calc_liquidity` of `sim.py`; returns
`(x_reserves, y_reserves, liquidity)`.  The Python code also computes an
`actual_apy` that is discarded. -/
def calc_liquidity (target_liquidity market_price apy days_until_maturity
    time_stretch c u : ℝ) : ℝ × ℝ × ℝ :=
  let spot_price := calc_spot_price_from_apy apy days_until_maturity
  let t := days_until_maturity / (365 * time_stretch)
  let y_reserves := target_liquidity / market_price / 2 / (1 - apy / 100 * t)
  let x_reserves := calc_x_reserves apy y_reserves days_until_maturity time_stretch
  let scaleUpFactor := target_liquidity /
    (x_reserves * market_price + y_reserves * market_price * spot_price)
  let y_reserves2 := y_reserves * scaleUpFactor
  let x_reserves2 := x_reserves * scaleUpFactor
  let liquidity := x_reserves2 * market_price + y_reserves2 * market_price * spot_price
  (x_reserves2, y_reserves2, liquidity)

/-- `Element_Pricing_Model.calc_in_given_out` of `sim.py`. -/
def calc_in_given_out (out in_reserves out_reserves : ℝ) (token_in : Token)
    (g t c u : ℝ) : Quote :=
  let k := in_reserves ^ (1 - t) + out_reserves ^ (1 - t)
  let without_fee := (k - (out_reserves - out) ^ (1 - t)) ^ (1 / (1 - t)) - in_reserves
  let fee := match token_in with
    | .base => (out - without_fee) * g
    | .fyt => (without_fee - out) * g
  let with_fee := without_fee + fee
  let without_fee_or_slippage := (in_reserves / out_reserves) ^ t * out
  ⟨without_fee_or_slippage, with_fee, without_fee, fee⟩

/-- `Element_Pricing_Model.calc_out_given_in` of `sim.py`. -/
def calc_out_given_in (in_ in_reserves out_reserves : ℝ) (token_out : Token)
    (g t c u : ℝ) : Quote :=
  let k := in_reserves ^ (1 - t) + out_reserves ^ (1 - t)
  let without_fee := out_reserves - (k - (in_reserves + in_) ^ (1 - t)) ^ (1 / (1 - t))
  let fee := match token_out with
    | .base => (in_ - without_fee) * g
    | .fyt => (without_fee - in_) * g
  let with_fee := without_fee - fee
  let without_fee_or_slippage := 1 / (in_reserves / out_reserves) ^ t * in_
  ⟨without_fee_or_slippage, with_fee, without_fee, fee⟩

/-- `Element_Pricing_Model.calc_lp_out_given_tokens_in` of `sim.py`; returns
`(x_needed, y_needed, lp_out)`. -/
def calc_lp_out_given_tokens_in (x_in y_in x_reserves y_reserves total_supply : ℝ) :
    ℝ × ℝ × ℝ :=
  if total_supply = 0 then
    (x_in, 0, x_in)
  else
    let x_needed := (x_reserves / y_reserves) * y_in
    if x_in < x_needed then
      (x_in, x_in / (x_reserves / y_reserves), (x_in * total_supply) / x_reserves)
    else
      (x_needed, y_in, (x_needed * total_supply) / x_reserves)

end Element_Pricing_Model

namespace YieldsSpacev2_Pricing_model

/-- `YieldsSpacev2_Pricing_model.model_name` of `sim.py`. -/
def model_name : String := "YieldsSpacev2"

/-- `YieldsSpacev2_Pricing_model.calc_time_stretch` of `sim.py`. -/
def calc_time_stretch (apy : ℝ) : ℝ := 3.09396 / (0.02789 * apy)

/-- `YieldsSpacev2_Pricing_model.calc_spot_price` of `sim.py`. -/
def calc_spot_price (x_reserves y_reserves total_supply t c u : ℝ) : ℝ :=
  1 / ((c * (y_reserves + total_supply)) / (u * x_reserves)) ^ t

/-- `YieldsSpacev2_Pricing_model.apy` of `sim.py`. -/
def apy (price days_until_maturity : ℝ) : ℝ :=
  (1 - price) / price / (days_until_maturity / 365) * 100

/-- `YieldsSpacev2_Pricing_model.calc_spot_price_from_apy` of `sim.py`. -/
def calc_spot_price_from_apy (apy days_until_maturity : ℝ) : ℝ :=
  1 - apy * (days_until_maturity / 365) / 100

/-- `YieldsSpacev2_Pricing_model.calc_apy_from_reserves` of `sim.py`. -/
def calc_apy_from_reserves (x_reserves y_reserves total_supply t t_stretch c u : ℝ) : ℝ :=
  apy (calc_spot_price x_reserves y_reserves total_supply t c u) (t * 365 * t_stretch)

/-- `YieldsSpacev2_Pricing_model.calc_x_reserves` of `sim.py`. -/
def calc_x_reserves (APY y_reserves days_until_maturity time_stretch c u : ℝ) : ℝ :=
  let t := days_until_maturity / (365 * time_stretch)
  let T := days_until_maturity / 365
  let r := APY / 100
  2 * c * y_reserves / (-c + u * (-1 / (r * T - 1)) ^ (1 / t))

/-- `YieldsSpacev2_Pricing_model.calc_liquidity` of `sim.py`; returns
`(x_reserves, y_reserves, liquidity)`. -/
def calc_liquidity (target_liquidity market_price apy days_until_maturity
    time_stretch c u : ℝ) : ℝ × ℝ × ℝ :=
  let spot_price := calc_spot_price_from_apy apy days_until_maturity
  let t := days_until_maturity / (365 * time_stretch)
  let y_reserves := target_liquidity / market_price / 2 / (1 - apy / 100 * t)
  let x_reserves := calc_x_reserves apy y_reserves days_until_maturity time_stretch c u
  let scaleUpFactor := target_liquidity /
    (x_reserves * market_price + y_reserves * market_price * spot_price)
  let y_reserves2 := y_reserves * scaleUpFactor
  let x_reserves2 := x_reserves * scaleUpFactor
  let liquidity := x_reserves2 * market_price + y_reserves2 * market_price * spot_price
  (x_reserves2, y_reserves2, liquidity)

/-- `YieldsSpacev2_Pricing_model.calc_in_given_out` of `sim.py`. -/
def calc_in_given_out (out in_reserves out_reserves : ℝ) (token_in : Token)
    (g t c u : ℝ) : Quote :=
  match token_in with
  | .base =>
    let scale := c / u
    let dy := out
    let z := in_reserves / c
    let y := out_reserves
    let k := scale * (u * z) ^ (1 - t) + y ^ (1 - t)
    let without_fee :=
      (1 / u * ((k - (y - dy) ^ (1 - t)) / scale) ^ (1 / (1 - t)) - z) * c
    let fee := (out - without_fee) * g
    let with_fee := without_fee + fee
    let without_fee_or_slippage := (in_reserves / (c / u * out_reserves)) ^ t * out
    ⟨without_fee_or_slippage, with_fee, without_fee, fee⟩
  | .fyt =>
    let scale := c / u
    let dz := out / c
    let z := out_reserves / c
    let y := in_reserves
    let k := scale * (u * z) ^ (1 - t) + y ^ (1 - t)
    let without_fee := (k - scale * (u * z - u * dz) ^ (1 - t)) ^ (1 / (1 - t)) - y
    let fee := (without_fee - out) * g
    let with_fee := without_fee + fee
    let without_fee_or_slippage := (c / u * in_reserves / out_reserves) ^ t * out
    ⟨without_fee_or_slippage, with_fee, without_fee, fee⟩

/-- `YieldsSpacev2_Pricing_model.calc_out_given_in` of `sim.py`. -/
def calc_out_given_in (in_ in_reserves out_reserves : ℝ) (token_out : Token)
    (g t c u : ℝ) : Quote :=
  match token_out with
  | .base =>
    let scale := c / u
    let dy := in_
    let z := out_reserves / c
    let y := in_reserves
    let k := scale * (u * z) ^ (1 - t) + y ^ (1 - t)
    let without_fee :=
      (z - 1 / u * ((k - (y + dy) ^ (1 - t)) / scale) ^ (1 / (1 - t))) * c
    let fee := (in_ - without_fee) * g
    let with_fee := without_fee - fee
    let without_fee_or_slippage := 1 / ((c / u * in_reserves) / out_reserves) ^ t * in_
    ⟨without_fee_or_slippage, with_fee, without_fee, fee⟩
  | .fyt =>
    let scale := c / u
    let dz := in_ / c
    let z := in_reserves / c
    let y := out_reserves
    let k := scale * (u * z) ^ (1 - t) + y ^ (1 - t)
    let without_fee := y - (k - scale * (u * z + u * dz) ^ (1 - t)) ^ (1 / (1 - t))
    let fee := (without_fee - in_) * g
    let with_fee := without_fee - fee
    let without_fee_or_slippage := 1 / (in_reserves / (c / u * out_reserves)) ^ t * in_
    ⟨without_fee_or_slippage, with_fee, without_fee, fee⟩

end YieldsSpacev2_Pricing_model

namespace YieldsSpacev2_Pricing_model_MinFee

/-- `YieldsSpacev2_Pricing_model_MinFee.model_name` of `sim.py`. -/
def model_name : String := "YieldsSpacev2_MinFee"

/-- `YieldsSpacev2_Pricing_model_MinFee.calc_time_stretch` of `sim.py`. -/
def calc_time_stretch (apy : ℝ) : ℝ := 3.09396 / (0.02789 * apy)

/-- `YieldsSpacev2_Pricing_model_MinFee.calc_spot_price` of `sim.py`. -/
def calc_spot_price (x_reserves y_reserves total_supply t c u : ℝ) : ℝ :=
  1 / ((c * (y_reserves + total_supply)) / (u * x_reserves)) ^ t

/-- `YieldsSpacev2_Pricing_model_MinFee.apy` of `sim.py`. -/
def apy (price days_until_maturity : ℝ) : ℝ :=
  (1 - price) / price / (days_until_maturity / 365) * 100

/-- `YieldsSpacev2_Pricing_model_MinFee.calc_spot_price_from_apy` of `sim.py`. -/
def calc_spot_price_from_apy (apy days_until_maturity : ℝ) : ℝ :=
  1 - apy * (days_until_maturity / 365) / 100

/-- `YieldsSpacev2_Pricing_model_MinFee.calc_apy_from_reserves` of `sim.py`. -/
def calc_apy_from_reserves (x_reserves y_reserves total_supply t t_stretch c u : ℝ) : ℝ :=
  apy (calc_spot_price x_reserves y_reserves total_supply t c u) (t * 365 * t_stretch)

/-- `YieldsSpacev2_Pricing_model_MinFee.calc_x_reserves` of `sim.py`. -/
def calc_x_reserves (APY y_reserves days_until_maturity time_stretch c u : ℝ) : ℝ :=
  let t := days_until_maturity / (365 * time_stretch)
  let T := days_until_maturity / 365
  let r := APY / 100
  2 * c * y_reserves / (-c + u * (-1 / (r * T - 1)) ^ (1 / t))

/-- `YieldsSpacev2_Pricing_model_MinFee.calc_liquidity` of `sim.py`; returns
`(x_reserves, y_reserves, liquidity)`. -/
def calc_liquidity (target_liquidity market_price apy days_until_maturity
    time_stretch c u : ℝ) : ℝ × ℝ × ℝ :=
  let spot_price := calc_spot_price_from_apy apy days_until_maturity
  let t := days_until_maturity / (365 * time_stretch)
  let y_reserves := target_liquidity / market_price / 2 / (1 - apy / 100 * t)
  let x_reserves := calc_x_reserves apy y_reserves days_until_maturity time_stretch c u
  let scaleUpFactor := target_liquidity /
    (x_reserves * market_price + y_reserves * market_price * spot_price)
  let y_reserves2 := y_reserves * scaleUpFactor
  let x_reserves2 := x_reserves * scaleUpFactor
  let liquidity := x_reserves2 * market_price + y_reserves2 * market_price * spot_price
  (x_reserves2, y_reserves2, liquidity)

/-- `YieldsSpacev2_Pricing_model_MinFee.calc_in_given_out` of `sim.py`
(identical to the `YieldsSpacev2_Pricing_model` version; the source
duplicates the code and applies no fee floor here). -/
def calc_in_given_out (out in_reserves out_reserves : ℝ) (token_in : Token)
    (g t c u : ℝ) : Quote :=
  match token_in with
  | .base =>
    let scale := c / u
    let dy := out
    let z := in_reserves / c
    let y := out_reserves
    let k := scale * (u * z) ^ (1 - t) + y ^ (1 - t)
    let without_fee :=
      (1 / u * ((k - (y - dy) ^ (1 - t)) / scale) ^ (1 / (1 - t)) - z) * c
    let fee := (out - without_fee) * g
    let with_fee := without_fee + fee
    let without_fee_or_slippage := (in_reserves / (c / u * out_reserves)) ^ t * out
    ⟨without_fee_or_slippage, with_fee, without_fee, fee⟩
  | .fyt =>
    let scale := c / u
    let dz := out / c
    let z := out_reserves / c
    let y := in_reserves
    let k := scale * (u * z) ^ (1 - t) + y ^ (1 - t)
    let without_fee := (k - scale * (u * z - u * dz) ^ (1 - t)) ^ (1 / (1 - t)) - y
    let fee := (without_fee - out) * g
    let with_fee := without_fee + fee
    let without_fee_or_slippage := (c / u * in_reserves / out_reserves) ^ t * out
    ⟨without_fee_or_slippage, with_fee, without_fee, fee⟩

/-- `YieldsSpacev2_Pricing_model_MinFee.calc_out_given_in` of `sim.py`: the
YieldSpace curve output with the fee floored at `in_ * 5/100/100` whenever
`fee / in_ < 5/100/100`, in both branches. -/
def calc_out_given_in (in_ in_reserves out_reserves : ℝ) (token_out : Token)
    (g t c u : ℝ) : Quote :=
  match token_out with
  | .base =>
    let scale := c / u
    let dy := in_
    let z := out_reserves / c
    let y := in_reserves
    let k := scale * (u * z) ^ (1 - t) + y ^ (1 - t)
    let without_fee :=
      (z - 1 / u * ((k - (y + dy) ^ (1 - t)) / scale) ^ (1 / (1 - t))) * c
    let fee0 := (in_ - without_fee) * g
    let fee := if fee0 / in_ < 5 / 100 / 100 then in_ * 5 / 100 / 100 else fee0
    let with_fee := without_fee - fee
    let without_fee_or_slippage := 1 / ((c / u * in_reserves) / out_reserves) ^ t * in_
    ⟨without_fee_or_slippage, with_fee, without_fee, fee⟩
  | .fyt =>
    let scale := c / u
    let dz := in_ / c
    let z := in_reserves / c
    let y := out_reserves
    let k := scale * (u * z) ^ (1 - t) + y ^ (1 - t)
    let without_fee := y - (k - scale * (u * z + u * dz) ^ (1 - t)) ^ (1 / (1 - t))
    let fee0 := (without_fee - in_) * g
    let fee := if fee0 / in_ < 5 / 100 / 100 then in_ * 5 / 100 / 100 else fee0
    let with_fee := without_fee - fee
    let without_fee_or_slippage := 1 / (in_reserves / (c / u * out_reserves)) ^ t * in_
    ⟨without_fee_or_slippage, with_fee, without_fee, fee⟩

end YieldsSpacev2_Pricing_model_MinFee

/-- Valid call states for `Element_Pricing_Model.calc_out_given_in`: positive
amount and reserves, `t` in `(0,1)`, nonnegative fee rate, the trade staying
inside the curve's real domain, and the no-arbitrage reserve ordering of the
crossed direction (the fyt-side reserve argument dominates the base side,
which in `Market` always holds since the fyt side is `y + total_supply`). -/
def ElementOutValid (in_ rin rout g t : ℝ) (tok : Token) : Prop :=
  0 < in_ ∧ 0 < rin ∧ 0 < rout ∧ 0 < t ∧ t < 1 ∧ 0 ≤ g ∧
  0 ≤ rin ^ (1 - t) + rout ^ (1 - t) - (rin + in_) ^ (1 - t) ∧
  match tok with
  | .base => rout ≤ rin
  | .fyt => rin + in_ ≤ rout - in_

/-- Valid call states for `Element_Pricing_Model.calc_in_given_out`. -/
def ElementInValid (out rin rout g t : ℝ) (tok : Token) : Prop :=
  0 < out ∧ 0 < rin ∧ 0 < rout ∧ 0 < t ∧ t < 1 ∧ 0 ≤ g ∧
  match tok with
  | .base => rin + out ≤ rout - out
  | .fyt => out ≤ rout ∧ rout ≤ rin

/-- Valid call states for the YieldSpace `calc_out_given_in` (shared by the
plain and MinFee variants): positivity, `t` in `(0,1)`, nonnegative fee rate,
positive share-price parameters, the `mu`-weighted no-arbitrage reserve
ordering, and the trade staying inside the curve's real domain. -/
def YSOutValid (in_ rin rout g t c u : ℝ) (tok : Token) : Prop :=
  0 < in_ ∧ 0 < rin ∧ 0 < rout ∧ 0 < t ∧ t < 1 ∧ 0 ≤ g ∧ 0 < c ∧ 0 < u ∧
  match tok with
  | .base => u * (rout / c) ≤ rin ∧
      0 ≤ (u * (rout / c)) ^ (1 - t)
        - 1 / (c / u) * ((rin + in_) ^ (1 - t) - rin ^ (1 - t))
  | .fyt => u * (rin / c) + u * (in_ / c) ≤ rout - c / u * (u * (in_ / c)) ∧
      0 ≤ rout ^ (1 - t)
        - c / u * ((u * (rin / c) + u * (in_ / c)) ^ (1 - t) - (u * (rin / c)) ^ (1 - t))

/-- Valid call states for the YieldSpace `calc_in_given_out` (shared by the
plain and MinFee variants). -/
def YSInValid (out rin rout g t c u : ℝ) (tok : Token) : Prop :=
  0 < out ∧ 0 < rin ∧ 0 < rout ∧ 0 < t ∧ t < 1 ∧ 0 ≤ g ∧ 0 < c ∧ 0 < u ∧
  match tok with
  | .base => u * (rin / c) + out / (c / u) ≤ rout - out
  | .fyt => u * (out / c) ≤ u * (rout / c) ∧ u * (rout / c) ≤ rin

/-- The three pricing-model classes selected by name in
`yieldSimulator.run_simulation`. -/
inductive PModel
  | element
  | yieldspace
  | yieldspaceMinFee

/-- Dispatch of `model_name` over the selected pricing model. -/
def PModel.model_name : PModel → String
  | .element => Element_Pricing_Model.model_name
  | .yieldspace => YieldsSpacev2_Pricing_model.model_name
  | .yieldspaceMinFee => YieldsSpacev2_Pricing_model_MinFee.model_name

/-- Dispatch of `calc_time_stretch` over the selected pricing model. -/
def PModel.calc_time_stretch : PModel → ℝ → ℝ
  | .element => Element_Pricing_Model.calc_time_stretch
  | .yieldspace => YieldsSpacev2_Pricing_model.calc_time_stretch
  | .yieldspaceMinFee => YieldsSpacev2_Pricing_model_MinFee.calc_time_stretch

/-- Dispatch of `calc_spot_price` over the selected pricing model.  Call
sites in `sim.py` pass `(x, y, total_supply, t, conversion_rate,
normalizing_constant)` positionally; for `Element_Pricing_Model` the last two
arguments bind the unused parameters `u` and `c`. -/
def PModel.calc_spot_price : PModel → ℝ → ℝ → ℝ → ℝ → ℝ → ℝ → ℝ
  | .element => Element_Pricing_Model.calc_spot_price
  | .yieldspace => YieldsSpacev2_Pricing_model.calc_spot_price
  | .yieldspaceMinFee => YieldsSpacev2_Pricing_model_MinFee.calc_spot_price

/-- Dispatch of `apy` over the selected pricing model. -/
def PModel.apy : PModel → ℝ → ℝ → ℝ
  | .element => Element_Pricing_Model.apy
  | .yieldspace => YieldsSpacev2_Pricing_model.apy
  | .yieldspaceMinFee => YieldsSpacev2_Pricing_model_MinFee.apy

/-- Dispatch of `calc_liquidity` over the selected pricing model. -/
def PModel.calc_liquidity : PModel → ℝ → ℝ → ℝ → ℝ → ℝ → ℝ → ℝ → ℝ × ℝ × ℝ
  | .element => Element_Pricing_Model.calc_liquidity
  | .yieldspace => YieldsSpacev2_Pricing_model.calc_liquidity
  | .yieldspaceMinFee => YieldsSpacev2_Pricing_model_MinFee.calc_liquidity

/-- Dispatch of `calc_in_given_out` over the selected pricing model. -/
def PModel.calc_in_given_out (m : PModel) (out in_reserves out_reserves : ℝ)
    (token_in : Token) (g t c u : ℝ) : Quote :=
  match m with
  | .element => Element_Pricing_Model.calc_in_given_out out in_reserves out_reserves token_in g t c u
  | .yieldspace => YieldsSpacev2_Pricing_model.calc_in_given_out out in_reserves out_reserves token_in g t c u
  | .yieldspaceMinFee => YieldsSpacev2_Pricing_model_MinFee.calc_in_given_out out in_reserves out_reserves token_in g t c u

/-- Dispatch of `calc_out_given_in` over the selected pricing model. -/
def PModel.calc_out_given_in (m : PModel) (in_ in_reserves out_reserves : ℝ)
    (token_out : Token) (g t c u : ℝ) : Quote :=
  match m with
  | .element => Element_Pricing_Model.calc_out_given_in in_ in_reserves out_reserves token_out g t c u
  | .yieldspace => YieldsSpacev2_Pricing_model.calc_out_given_in in_ in_reserves out_reserves token_out g t c u
  | .yieldspaceMinFee => YieldsSpacev2_Pricing_model_MinFee.calc_out_given_in in_ in_reserves out_reserves token_out g t c u

/-- The mutable state of the `Market` class of `sim.py`. -/
structure Market where
  x : ℝ
  y : ℝ
  total_supply : ℝ
  g : ℝ
  t : ℝ
  c : ℝ
  u : ℝ
  pricing_model : PModel
  x_orders : ℕ
  y_orders : ℕ
  x_volume : ℝ
  y_volume : ℝ
  cum_y_slippage : ℝ
  cum_x_slippage : ℝ
  cum_y_fees : ℝ
  cum_x_fees : ℝ
  starting_fyt_price : ℝ

/-- `Market.__init__` of `sim.py`: all accumulators start at zero and
`starting_fyt_price` records the initial spot price. -/
def Market.init (x y g t total_supply : ℝ) (pricing_model : PModel) (c u : ℝ) : Market :=
  { x := x, y := y, total_supply := total_supply, g := g, t := t, c := c, u := u,
    pricing_model := pricing_model,
    x_orders := 0, y_orders := 0, x_volume := 0, y_volume := 0,
    cum_y_slippage := 0, cum_x_slippage := 0, cum_y_fees := 0, cum_x_fees := 0,
    starting_fyt_price := pricing_model.calc_spot_price x y total_supply t c u }

/-- `Market.spot_price` of `sim.py`. -/
def Market.spot_price (m : Market) : ℝ :=
  m.pricing_model.calc_spot_price m.x m.y m.total_supply m.t m.c m.u

/-- `Market.apy` of `sim.py`. -/
def Market.apy (m : Market) (days_until_maturity : ℝ) : ℝ :=
  m.pricing_model.apy
    (m.pricing_model.calc_spot_price m.x m.y m.total_supply m.t m.c m.u)
    days_until_maturity

/-- `Market.tick` of `sim.py`. -/
def Market.tick (m : Market) (step_size : ℝ) : Market := { m with t := m.t - step_size }

/-- `Market.swap` of `sim.py`.  The four handled `(direction, token_in,
token_out)` combinations quote a trade via the pricing model and mutate the
reserves and accumulators only when `fee > 0`; other combinations reach the
final `return` with unbound locals in Python (an error), modelled as `none`.
The `display` debugging calls and the complex-number `isinstance` checks have
no state effect and are not modelled. -/
def Market.swap (m : Market) (amount : ℝ) (direction : Direction)
    (token_in token_out : Token) : Option (Quote × Market) :=
  match direction, token_in, token_out with
  | .din, .fyt, .base =>
    let q := m.pricing_model.calc_in_given_out amount (m.y + m.total_supply) m.x
      .fyt m.g m.t m.c m.u
    if 0 < q.fee then
      some (q, { m with
        x := m.x - q.with_fee
        y := m.y + amount
        cum_x_slippage := m.cum_x_slippage + |q.without_fee_or_slippage - q.without_fee|
        cum_y_fees := m.cum_y_fees + q.fee
        x_orders := m.x_orders + 1
        x_volume := m.x_volume + q.with_fee })
    else some (q, m)
  | .din, .base, .fyt =>
    let q := m.pricing_model.calc_in_given_out amount m.x (m.y + m.total_supply)
      .base m.g m.t m.c m.u
    if 0 < q.fee then
      some (q, { m with
        x := m.x + amount
        y := m.y - q.with_fee
        cum_y_slippage := m.cum_y_slippage + |q.without_fee_or_slippage - q.without_fee|
        cum_x_fees := m.cum_x_fees + q.fee
        y_orders := m.y_orders + 1
        y_volume := m.y_volume + q.with_fee })
    else some (q, m)
  | .dout, .fyt, .base =>
    let q := m.pricing_model.calc_out_given_in amount (m.y + m.total_supply) m.x
      .base m.g m.t m.c m.u
    if 0 < q.fee then
      some (q, { m with
        x := m.x - q.with_fee
        y := m.y + amount
        cum_x_slippage := m.cum_x_slippage + |q.without_fee_or_slippage - q.without_fee|
        cum_x_fees := m.cum_x_fees + q.fee
        x_orders := m.x_orders + 1
        x_volume := m.x_volume + q.with_fee })
    else some (q, m)
  | .dout, .base, .fyt =>
    let q := m.pricing_model.calc_out_given_in amount m.x (m.y + m.total_supply)
      .fyt m.g m.t m.c m.u
    if 0 < q.fee then
      some (q, { m with
        x := m.x + amount
        y := m.y - q.with_fee
        cum_y_slippage := m.cum_y_slippage + |q.without_fee_or_slippage - q.without_fee|
        cum_y_fees := m.cum_y_fees + q.fee
        y_orders := m.y_orders + 1
        y_volume := m.y_volume + q.with_fee })
    else some (q, m)
  | _, _, _ => none

/-- The constructor parameters of `yieldSimulator` that the simulation reads
(`pricing_model_name` is modelled as the already-resolved `PModel`, mirroring
the string dispatch in `run_simulation`; an unknown name raises there). -/
structure SimParams where
  step_size : ℝ
  min_fee : ℝ
  max_fee : ℝ
  t_min : ℝ
  t_max : ℝ
  tokens : Token × Token
  min_target_liquidity : ℝ
  max_target_liquidity : ℝ
  min_target_volume : ℝ
  max_target_volume : ℝ
  min_apy : ℝ
  max_apy : ℝ
  min_vault_age : ℝ
  max_vault_age : ℝ
  min_vault_apy : ℝ
  max_vault_apy : ℝ
  min_pool_age : ℝ
  max_pool_age : ℝ
  base_asset_price : ℝ
  precision : ℕ
  pricing_model_name : PModel
  trade_direction : Direction
  days_until_maturity : ℝ
  num_trading_days : ℕ

/-- The randomized simulation variables produced by
`yieldSimulator.set_sim_params`. -/
structure SimVars where
  target_liquidity : ℝ
  target_daily_volume : ℝ
  start_apy : ℝ
  fee_percent : ℝ
  init_vault_age : ℝ
  vault_apy : ℝ
  pool_age : ℝ

/-- A `np.random.uniform(lo, hi)` draw, modelled as a transform of the next
abstract value `v` of the seeded draw stream. -/
def uniformDraw (lo hi v : ℝ) : ℝ := lo + (hi - lo) * v

/-- A `np.random.normal(mean, std)` draw, modelled as a transform of the next
abstract value `v` of the seeded draw stream. -/
def normalDraw (mean std v : ℝ) : ℝ := mean + std * v

/-- A `np.random.randint(0, 2)` draw, modelled as a function of the next
abstract value `v` of the seeded draw stream. -/
def intDraw (v : ℝ) : ℕ := if v < 1 / 2 then 0 else 1

/-- `np.around(x, precision)`, rounding to `precision` decimal places. -/
def around (x : ℝ) (precision : ℕ) : ℝ :=
  (round (x * 10 ^ precision) : ℝ) / 10 ^ precision

/-- `yieldSimulator.set_sim_params` of `sim.py`: consumes the first seven
draws of the stream `s` in program order. -/
def setSimParams (p : SimParams) (s : ℕ → ℝ) : SimVars :=
  let target_liquidity := uniformDraw p.min_target_liquidity p.max_target_liquidity (s 0)
  let target_daily_volume := uniformDraw p.min_target_volume p.max_target_volume (s 1)
  let start_apy := uniformDraw p.min_apy p.max_apy (s 2)
  let fee_percent := uniformDraw p.min_fee p.max_fee (s 3)
  let init_vault_age := uniformDraw p.min_vault_age p.max_vault_age (s 4)
  let vault_apy := uniformDraw p.min_vault_apy p.max_vault_apy (s 5) / 100
  let pool_age := uniformDraw (min init_vault_age p.min_pool_age) p.max_pool_age (s 6)
  ⟨target_liquidity, target_daily_volume, start_apy, fee_percent, init_vault_age,
    vault_apy, pool_age⟩

/-- The `override_dict` of `yieldSimulator.run_simulation`, restricted to the
attributes that the simulation subsequently reads: the seven randomized
variables (settable through the generic `setattr` loop) and the two keys
`conversion_rate` / `normalizing_constant` that the code handles explicitly. -/
structure Override where
  target_liquidity : Option ℝ
  target_daily_volume : Option ℝ
  start_apy : Option ℝ
  fee_percent : Option ℝ
  init_vault_age : Option ℝ
  vault_apy : Option ℝ
  pool_age : Option ℝ
  conversion_rate : Option ℝ
  normalizing_constant : Option ℝ

/-- The `setattr` loop of `run_simulation` applied to the simulation
variables. -/
def applyOverride (ov : Override) (v : SimVars) : SimVars :=
  ⟨ov.target_liquidity.getD v.target_liquidity,
    ov.target_daily_volume.getD v.target_daily_volume,
    ov.start_apy.getD v.start_apy,
    ov.fee_percent.getD v.fee_percent,
    ov.init_vault_age.getD v.init_vault_age,
    ov.vault_apy.getD v.vault_apy,
    ov.pool_age.getD v.pool_age⟩

/-- One row appended to `analysis_dict` by
`yieldSimulator.update_analysis_dict` (one entry per key, per trade). -/
structure AnalysisRow where
  model_name : String
  time_until_end : ℝ
  t_stretch : ℝ
  target_liquidity : ℝ
  target_daily_volume : ℝ
  start_apy : ℝ
  current_apy : ℝ
  fee_percent : ℝ
  init_vault_age : ℝ
  vault_apy : ℝ
  pool_age : ℝ
  x_reserves : ℝ
  y_reserves : ℝ
  total_supply : ℝ
  token_in : Token
  token_out : Token
  direction : Direction
  trade_amount : ℝ
  conversion_rate : ℝ
  normalizing_constant : ℝ
  out_without_fee_slippage : ℝ
  out_with_fee : ℝ
  out_without_fee : ℝ
  fee : ℝ
  days_until_maturity : ℝ
  num_trading_days : ℕ
  day : ℕ
  spot_price : ℝ
  num_orders : ℕ

/-- `yieldSimulator.update_analysis_dict` of `sim.py`, reading the market
state after the swap. -/
def mkRow (p : SimParams) (v : SimVars) (t_stretch : ℝ) (day : ℕ) (market : Market)
    (token_in token_out : Token) (trade_amount : ℝ) (q : Quote) : AnalysisRow :=
  { model_name := market.pricing_model.model_name
    time_until_end := market.t
    t_stretch := t_stretch
    target_liquidity := v.target_liquidity
    target_daily_volume := v.target_daily_volume
    start_apy := v.start_apy
    current_apy := market.apy (p.days_until_maturity - (day : ℝ) + 1)
    fee_percent := v.fee_percent
    init_vault_age := v.init_vault_age
    vault_apy := v.vault_apy
    pool_age := v.pool_age
    x_reserves := market.x
    y_reserves := market.y
    total_supply := market.total_supply
    token_in := token_in
    token_out := token_out
    direction := p.trade_direction
    trade_amount := trade_amount
    conversion_rate := market.c
    normalizing_constant := market.u
    out_without_fee_slippage := q.without_fee_or_slippage
    out_with_fee := q.with_fee
    out_without_fee := q.without_fee
    fee := q.fee
    days_until_maturity := p.days_until_maturity
    num_trading_days := p.num_trading_days
    day := day
    spot_price := market.spot_price
    num_orders := market.x_orders + market.y_orders }

/-- The `while day_trading_volume < self.target_daily_volume` trade loop of
`run_simulation`.  Each pass consumes two stream draws (`np.random.normal`
for the trade size and `np.random.randint` for the token pair), performs the
swap and appends an analysis row.  `fuel` bounds the number of passes; a run
that would keep looping past the fuel (the Python loop has no cap) yields
`none`, as does a swap on an unhandled token pair. -/
def tradeLoop (p : SimParams) (v : SimVars) (t_stretch : ℝ) (day : ℕ) (s : ℕ → ℝ) :
    ℕ → Market → List AnalysisRow → ℝ → ℕ →
    Option (Market × List AnalysisRow × ℕ)
  | 0, market, rows, day_trading_volume, k =>
    if day_trading_volume < v.target_daily_volume then none else some (market, rows, k)
  | fuel + 1, market, rows, day_trading_volume, k =>
    if day_trading_volume < v.target_daily_volume then
      let trade_amount := normalDraw (v.target_daily_volume / 10)
        (v.target_daily_volume / 10 / 10) (s k) / p.base_asset_price
      let token_index := intDraw (s (k + 1))
      let token_in := if token_index = 0 then p.tokens.1 else p.tokens.2
      let token_out := if token_index = 0 then p.tokens.2 else p.tokens.1
      match market.swap trade_amount p.trade_direction token_in token_out with
      | none => none
      | some (q, market2) =>
        let row := mkRow p v t_stretch day market2 token_in token_out trade_amount q
        tradeLoop p v t_stretch day s fuel market2 (rows ++ [row])
          (day_trading_volume + trade_amount * p.base_asset_price) (k + 2)
    else some (market, rows, k)

/-- The `for day in range(self.num_trading_days)` loop of `run_simulation`:
accrues the daily vault interest into `market.c`, runs the day trade loop and
ticks the market clock. -/
def dayLoop (p : SimParams) (v : SimVars) (t_stretch : ℝ) (s : ℕ → ℝ) (fuel : ℕ) :
    ℕ → ℕ → Market → List AnalysisRow → ℕ →
    Option (Market × List AnalysisRow × ℕ)
  | 0, _day, market, rows, k => some (market, rows, k)
  | d + 1, day, market, rows, k =>
    let market1 := { market with c := market.c + v.vault_apy / 100 / 365 * market.u }
    match tradeLoop p v t_stretch day s fuel market1 rows 0 k with
    | none => none
    | some (market2, rows2, k2) =>
      dayLoop p v t_stretch s fuel d (day + 1) (market2.tick p.step_size) rows2 k2

/-- `yieldSimulator.set_sim_params` followed by `run_simulation` of `sim.py`:
draws the simulation variables from the stream, applies the override dict,
derives `conversion_rate` (`c`) and `normalizing_constant` (`mu`), sets up the
market via `calc_liquidity` and runs the trading days, returning the analysis
rows.  The spot price computed before market construction feeds only a
commented-out line and is not modelled. -/
def simulate (p : SimParams) (ov : Override) (s : ℕ → ℝ) (fuel : ℕ) :
    Option (List AnalysisRow) :=
  let v := applyOverride ov (setSimParams p s)
  let conversion_rate :=
    ov.conversion_rate.getD (around ((1 + v.vault_apy) ^ v.init_vault_age) p.precision)
  let normalizing_constant :=
    ov.normalizing_constant.getD (around ((1 + v.vault_apy) ^ v.pool_age) p.precision)
  let model := p.pricing_model_name
  let t_stretch := model.calc_time_stretch v.start_apy
  let xyl := model.calc_liquidity v.target_liquidity p.base_asset_price v.start_apy
    p.days_until_maturity t_stretch conversion_rate normalizing_constant
  let total_supply := xyl.1 + xyl.2.1
  let market := Market.init xyl.1 xyl.2.1 v.fee_percent
    (p.days_until_maturity / (365 * t_stretch)) total_supply model
    conversion_rate normalizing_constant
  match dayLoop p v t_stretch s fuel p.num_trading_days 0 market [] 7 with
  | none => none
  | some (_, rows, _) => some rows

/-- A concrete parameter record used to witness simulator claims. -/
def simParamsW : SimParams :=
  { step_size := 1, min_fee := 0, max_fee := 1, t_min := 0, t_max := 1,
    tokens := (Token.base, Token.fyt),
    min_target_liquidity := 100, max_target_liquidity := 100,
    min_target_volume := 10, max_target_volume := 10,
    min_apy := 5, max_apy := 5, min_vault_age := 0, max_vault_age := 1,
    min_vault_apy := 0, max_vault_apy := 5, min_pool_age := 0, max_pool_age := 1,
    base_asset_price := 1, precision := 8,
    pricing_model_name := PModel.element, trade_direction := Direction.dout,
    days_until_maturity := 90, num_trading_days := 2 }

/-- An empty override dict. -/
def overrideW : Override :=
  ⟨none, none, none, none, none, none, none, none, none⟩

/-- A concrete Element-model market with unit reserves, used to witness the
swap frame property. -/
def marketW : Market := Market.init 1 1 (1/2) (1/2) 1 PModel.element 1 1

end Sim

end

namespace LPandArb

/-- C1: Bond-reserves/APR round trip. For positive effective share reserves
`z - zeta`, positive `mu`, `r`, `d`, `tau`, computing
`target_bonds = calc_bond_reserves z zeta mu r d (1/tau)` and then
`calc_apr_local z zeta target_bonds mu d tau` returns exactly `r`. -/
theorem calc_bond_reserves_apr_round_trip (z ζ μ r d τ : ℝ)
    (hz : ζ < z) (hμ : 0 < μ) (hr : 0 < r) (hd : 0 < d) (hτ : 0 < τ) :
    calc_apr_local z ζ (calc_bond_reserves z ζ μ r d (1 / τ)) μ d τ = r := by
  have hN : (0:ℝ) < 365 * 24 * 60 * 60 := by norm_num
  have hA : (1:ℝ) < 1 + r * d / (365 * 24 * 60 * 60) := by
    have : 0 < r * d / (365 * 24 * 60 * 60) := by positivity
    linarith
  set A : ℝ := 1 + r * d / (365 * 24 * 60 * 60) with hAdef
  have hA0 : (0:ℝ) < A := lt_trans one_pos hA
  have hzz : (0:ℝ) < z - ζ := sub_pos.mpr hz
  have hpow : (0:ℝ) < A ^ (1/τ : ℝ) := rpow_pos_of_pos hA0 _
  have hbase : μ * (z - ζ) / (μ * (z - ζ) * A ^ (1/τ : ℝ)) = (A ^ (1/τ : ℝ))⁻¹ := by
    rw [div_mul_eq_div_div]
    rw [div_self (by positivity : μ * (z - ζ) ≠ 0)]
    exact one_div _
  have hAτ : ((A ^ (1/τ : ℝ))⁻¹ : ℝ) ^ (τ : ℝ) = A⁻¹ := by
    rw [Real.inv_rpow hpow.le, ← Real.rpow_mul hA0.le, one_div,
      inv_mul_cancel₀ (ne_of_gt hτ), Real.rpow_one]
  have hspot : calc_spot_price_local μ z ζ (calc_bond_reserves z ζ μ r d (1 / τ)) τ
      = A⁻¹ := by
    simp only [calc_spot_price_local, calc_bond_reserves, ← hAdef]
    rw [hbase]
    exact hAτ
  simp only [calc_apr_local]
  rw [hspot]
  have hAne : A ≠ 0 := ne_of_gt hA0
  have hdne : d ≠ 0 := ne_of_gt hd
  rw [hAdef]
  field_simp
  ring

/-- Witness for C1 at the concrete input `z = 2`, `zeta = 1`, `mu = 1`, `r = 1`,
`d = 31536000` (one year of seconds), `tau = 1`. -/
theorem calc_bond_reserves_apr_round_trip_witness :
    (1:ℝ) < 2 ∧ (0:ℝ) < 1 ∧ (0:ℝ) < 31536000 ∧
    calc_apr_local 2 1 (calc_bond_reserves 2 1 1 1 31536000 (1/1)) 1 31536000 1 = 1 :=
  ⟨by norm_num, by norm_num, by norm_num,
    calc_bond_reserves_apr_round_trip 2 1 1 1 31536000 1 (by norm_num) (by norm_num)
      (by norm_num) (by norm_num) (by norm_num)⟩

/-- Helper: the solver loop returns immediately when the predicted rate is
already within tolerance of the target. -/
theorem solverLoop_early_exit (cfg : SolverConfig) (target_rate : ℝ)
    (info : SolverPoolInfo) (p : ℝ) (i : ℕ) (h : |p - target_rate| ≤ TOLERANCE) :
    solverLoop cfg target_rate info p i = (info, p, i) := by
  rw [solverLoop]
  simp [h]

/-- Helper: entered below the iteration cap, the solver loop executes at most
`MAX_ITER` total iterations. -/
theorem solverLoop_iter_le (cfg : SolverConfig) (target_rate : ℝ) :
    ∀ (n : ℕ) (info : SolverPoolInfo) (p : ℝ) (i : ℕ), MAX_ITER ≤ i + n →
      i < MAX_ITER → (solverLoop cfg target_rate info p i).2.2 ≤ MAX_ITER := by
  intro n
  induction n with
  | zero => intro info p i hn hi; omega
  | succ n ih =>
    intro info p i hn hi
    rw [solverLoop]
    by_cases h : |p - target_rate| ≤ TOLERANCE
    · simp [h]; omega
    · simp only [h, if_false]
      by_cases h2 : MAX_ITER ≤ i + 1
      · simp [h2]; omega
      · simp only [h2, if_false]
        exact ih _ _ (i + 1) (by omega) (by omega)

/-- C2: TargetRateSolver termination. For every config, target rate and pool
snapshot: the loop returns as soon as `|predicted_rate - target_rate| ≤
TOLERANCE`; the run of `calc_reserves_to_hit_target_rate` (which starts at
`predicted_rate = 0`, `iteration = 0`) executes at most `MAX_ITER = 10`
iterations; and the function returns the best-effort
`(shares_needed, bonds_needed)` deltas of the final working pool info. -/
theorem calc_reserves_to_hit_target_rate_terminates (cfg : SolverConfig)
    (target_rate : ℝ) (info : SolverPoolInfo) :
    (∀ (p : ℝ) (i : ℕ), |p - target_rate| ≤ TOLERANCE →
        solverLoop cfg target_rate info p i = (info, p, i)) ∧
    (solverLoop cfg target_rate info 0 0).2.2 ≤ MAX_ITER ∧
    calc_reserves_to_hit_target_rate cfg target_rate info =
      ((solverLoop cfg target_rate info 0 0).1.shareReserves - info.shareReserves,
        (solverLoop cfg target_rate info 0 0).1.bondReserves - info.bondReserves) := by
  refine ⟨fun p i h => solverLoop_early_exit cfg target_rate info p i h, ?_, rfl⟩
  exact solverLoop_iter_le cfg target_rate MAX_ITER info 0 0 (by omega)
    (by simp [MAX_ITER])

/-- Witness for C2 at a concrete config, pool snapshot and target rate `0`
(the initial predicted rate `0` is then within tolerance). -/
theorem calc_reserves_to_hit_target_rate_terminates_witness :
    |(0:ℝ) - 0| ≤ TOLERANCE ∧
    solverLoop ⟨1, 31536000, 1, 1, 0, 0⟩ 0 ⟨2, 0, 3, 1⟩ 0 0 = (⟨2, 0, 3, 1⟩, 0, 0) ∧
    (solverLoop ⟨1, 31536000, 1, 1, 0, 0⟩ 0 ⟨2, 0, 3, 1⟩ 0 0).2.2 ≤ MAX_ITER := by
  have h := calc_reserves_to_hit_target_rate_terminates ⟨1, 31536000, 1, 1, 0, 0⟩ 0 ⟨2, 0, 3, 1⟩
  have htol : |(0:ℝ) - 0| ≤ TOLERANCE := by norm_num [TOLERANCE]
  exact ⟨htol, h.1 0 0 htol, h.2.1⟩

/-- Helper: on the concrete snapshot `infoX` with target rate `1`, the target
bond reserves equal the current bond reserves, so the solver iteration leaves
the working pool info unchanged. -/
theorem solverStep_noop_on_infoX : solverStep cfgX 1 infoX = infoX := by
  have htb : calc_bond_reserves 2 1 1 1 31536000 2 = 4 := by
    unfold calc_bond_reserves
    rw [show (1:ℝ) + 1 * 31536000 / (365 * 24 * 60 * 60) = 2 by norm_num, Real.rpow_two]
    norm_num
  have hk : calc_k_local 1 1 2 4 (1/2) = (2:ℝ) ^ ((1:ℝ)/2) + 2 := by
    unfold calc_k_local
    have h4 : ((4:ℝ)) ^ ((1:ℝ) - 1/2) = 2 := by
      rw [show (1:ℝ) - 1/2 = (1:ℝ)/2 by norm_num,
        show (4:ℝ) = 2 ^ ((2:ℕ):ℝ) by rw [Real.rpow_natCast]; norm_num,
        ← Real.rpow_mul (by norm_num : (0:ℝ) ≤ 2)]
      norm_num [Real.rpow_one]
    rw [show ((1:ℝ) * 2) = 2 by norm_num, h4]
    norm_num
  have hgs : get_shares_in_for_bonds_out 4 1 1 2 0 (1/2) 0 0 = (0, 0, 0) := by
    simp only [get_shares_in_for_bonds_out]
    rw [hk]
    have h4 : ((4:ℝ) - 0) ^ ((1:ℝ) - 1/2) = 2 := by
      rw [show (4:ℝ) - 0 = 2 ^ ((2:ℕ):ℝ) by rw [Real.rpow_natCast]; norm_num,
        ← Real.rpow_mul (by norm_num : (0:ℝ) ≤ 2)]
      norm_num [Real.rpow_one]
    rw [h4]
    have hz : (((2:ℝ) ^ ((1:ℝ)/2) + 2 - 2) / (1 / 1)) ^ ((1:ℝ) / (1 - 1/2)) / 1 = 2 := by
      rw [show ((2:ℝ) ^ ((1:ℝ)/2) + 2 - 2) / (1 / 1) = (2:ℝ) ^ ((1:ℝ)/2) by ring,
        show (1:ℝ) / (1 - 1/2) = 2 by norm_num,
        ← Real.rpow_mul (by norm_num : (0:ℝ) ≤ 2)]
      norm_num [Real.rpow_one]
    rw [hz]
    norm_num
  simp only [solverStep, cfgX, infoX]
  rw [htb]
  norm_num
  rw [hgs]
  norm_num

/-- Helper: on `infoX` the recomputed predicted rate stays strictly more than
`TOLERANCE` away from the target rate `1`. -/
theorem solverPredictedRate_infoX_far : TOLERANCE < |solverPredictedRate cfgX infoX - 1| := by
  have hs : calc_spot_price_local 1 2 0 4 (1/2) = (2⁻¹:ℝ) ^ ((2⁻¹:ℝ)) := by
    unfold calc_spot_price_local
    norm_num
  have hq0 : (0:ℝ) < (2⁻¹:ℝ) ^ ((2⁻¹:ℝ)) := rpow_pos_of_pos (by norm_num) _
  set q : ℝ := (2⁻¹:ℝ) ^ ((2⁻¹:ℝ)) with hqdef
  have hqq : q * q = 2⁻¹ := by
    rw [hqdef, ← pow_two, ← Real.rpow_natCast ((2⁻¹:ℝ) ^ ((2⁻¹:ℝ))) 2,
      ← Real.rpow_mul (by norm_num : (0:ℝ) ≤ 2⁻¹)]
    norm_num [Real.rpow_one]
  have h7 : 0.7 < q := by nlinarith
  have h8 : q < 0.8 := by nlinarith
  have hpr : solverPredictedRate cfgX infoX = (1 - q) / (q * 1) := by
    simp only [solverPredictedRate, calc_apr_local, cfgX, infoX]
    rw [show (31536000:ℝ) / (365 * 24 * 60 * 60) = 1 by norm_num, hs]
  rw [hpr]
  have heq : (1 - q) / (q * 1) - 1 = (1 - 2 * q) / q := by
    field_simp
    ring
  rw [heq, abs_of_neg (div_neg_of_neg_of_pos (by nlinarith) hq0),
    show -((1 - 2 * q) / q) = (2 * q - 1) / q by ring]
  rw [lt_div_iff₀ hq0]
  simp only [TOLERANCE]
  nlinarith

/-- Helper: from any below-cap iteration count and any predicted rate outside
tolerance, the solver loop on `(cfgX, 1, infoX)` runs to the iteration cap and
returns the unchanged pool info together with the stuck predicted rate. -/
theorem solverLoop_stuck_on_infoX : ∀ (n i : ℕ) (p : ℝ), i + n = MAX_ITER → i < MAX_ITER →
    TOLERANCE < |p - 1| →
    solverLoop cfgX 1 infoX p i = (infoX, solverPredictedRate cfgX infoX, MAX_ITER) := by
  intro n
  induction n with
  | zero => intro i p hn hi; omega
  | succ n ih =>
    intro i p hn hi hp
    rw [solverLoop]
    rw [if_neg (by exact not_le.mpr hp)]
    rw [solverStep_noop_on_infoX]
    by_cases h2 : MAX_ITER ≤ i + 1
    · rw [if_pos h2]
      have : i + 1 = MAX_ITER := by omega
      rw [this]
    · rw [if_neg h2]
      exact ih (i + 1) _ (by omega) (by omega) solverPredictedRate_infoX_far

/-- C3 counterexample: the claim that the caller receives a status flag
distinguishing "converged" from "iteration-limited" fails.  On `(cfgX, infoX)`
a run with target rate `0` converges immediately (0 iterations, within
tolerance) while a run with target rate `1` stops at the `MAX_ITER` cap with
the predicted rate still outside tolerance, yet
`calc_reserves_to_hit_target_rate` returns the identical bare pair `(0, 0)` in
both cases: no component of the return value distinguishes the two outcomes. -/
theorem calc_reserves_no_status_flag_counterexample :
    calc_reserves_to_hit_target_rate cfgX 0 infoX =
      calc_reserves_to_hit_target_rate cfgX 1 infoX ∧
    (solverLoop cfgX 0 infoX 0 0).2.2 = 0 ∧
    |(solverLoop cfgX 0 infoX 0 0).2.1 - 0| ≤ TOLERANCE ∧
    (solverLoop cfgX 1 infoX 0 0).2.2 = MAX_ITER ∧
    TOLERANCE < |(solverLoop cfgX 1 infoX 0 0).2.1 - 1| := by
  have h0 : |(0:ℝ) - 0| ≤ TOLERANCE := by norm_num [TOLERANCE]
  have hrun0 : solverLoop cfgX 0 infoX 0 0 = (infoX, 0, 0) :=
    solverLoop_early_exit cfgX 0 infoX 0 0 h0
  have hrun1 : solverLoop cfgX 1 infoX 0 0 =
      (infoX, solverPredictedRate cfgX infoX, MAX_ITER) :=
    solverLoop_stuck_on_infoX MAX_ITER 0 0 (by omega) (by simp [MAX_ITER])
      (by norm_num [TOLERANCE])
  refine ⟨?_, ?_, ?_, ?_, ?_⟩
  · simp only [calc_reserves_to_hit_target_rate, hrun0, hrun1]
  · rw [hrun0]
  · rw [hrun0]; exact h0
  · rw [hrun1]
  · rw [hrun1]; exact solverPredictedRate_infoX_far

/-- C3 amended: when `calc_reserves_to_hit_target_rate` stops at the
`MAX_ITER` cap without reaching tolerance, the caller receives only the
best-effort `(shares_needed, bonds_needed)` pair; the return value carries no
status field (convergence information is only logged).  Concretely, the
iteration-limited run on `(cfgX, 1, infoX)` returns the bare best-effort
deltas `(0, 0)`. -/
theorem calc_reserves_best_effort_no_flag :
    (solverLoop cfgX 1 infoX 0 0).2.2 = MAX_ITER ∧
    TOLERANCE < |(solverLoop cfgX 1 infoX 0 0).2.1 - 1| ∧
    calc_reserves_to_hit_target_rate cfgX 1 infoX =
      ((solverLoop cfgX 1 infoX 0 0).1.shareReserves - infoX.shareReserves,
        (solverLoop cfgX 1 infoX 0 0).1.bondReserves - infoX.bondReserves) := by
  have hrun1 : solverLoop cfgX 1 infoX 0 0 =
      (infoX, solverPredictedRate cfgX infoX, MAX_ITER) :=
    solverLoop_stuck_on_infoX MAX_ITER 0 0 (by omega) (by simp [MAX_ITER])
      (by norm_num [TOLERANCE])
  refine ⟨by rw [hrun1], ?_, rfl⟩
  rw [hrun1]
  exact solverPredictedRate_infoX_far

end LPandArb

namespace Sim

/-- C7: Simulator reproducibility.  Two runs of `set_sim_params` followed by
`run_simulation` with identical constructor parameters, identical override
dict and pointwise-identical seeded draw streams produce identical
`analysis_dict` contents, entry for entry (the embedding makes every
stochastic input an explicit stream argument; nothing else is consulted). -/
theorem simulate_reproducible (p₁ p₂ : SimParams) (ov₁ ov₂ : Override)
    (s₁ s₂ : ℕ → ℝ) (fuel : ℕ)
    (hp : p₁ = p₂) (hov : ov₁ = ov₂) (hs : ∀ n, s₁ n = s₂ n) :
    simulate p₁ ov₁ s₁ fuel = simulate p₂ ov₂ s₂ fuel := by
  subst hp
  subst hov
  rw [funext hs]

/-- Witness for C7 at concrete parameters, an empty override and the constant
draw stream. -/
theorem simulate_reproducible_witness :
    simParamsW = simParamsW ∧ overrideW = overrideW ∧
    (∀ n : ℕ, (fun _ : ℕ => (1:ℝ)) n = (fun _ : ℕ => (1:ℝ)) n) ∧
    simulate simParamsW overrideW (fun _ => 1) 3 =
      simulate simParamsW overrideW (fun _ => 1) 3 :=
  ⟨rfl, rfl, fun _ => rfl,
    simulate_reproducible simParamsW simParamsW overrideW overrideW
      (fun _ => 1) (fun _ => 1) 3 rfl rfl (fun _ => rfl)⟩

/-- C9: Asymmetric LP deposit fallback.  With positive total supply and
reserves, whenever the proportional requirement
`x_needed = (x_reserves/y_reserves) * y_in` exceeds `x_in`,
`calc_lp_out_given_tokens_in` falls back to `x_needed = x_in`,
`y_needed = x_in / (x_reserves/y_reserves)` and
`lp_out = x_in * total_supply / x_reserves`, which is strictly smaller than
the mint `((x_reserves/y_reserves) * y_in * total_supply) / x_reserves` of the
full proportional deposit. -/
theorem calc_lp_out_asymmetric_fallback (x_in y_in x_reserves y_reserves total_supply : ℝ)
    (hts : 0 < total_supply) (hx : 0 < x_reserves) (hy : 0 < y_reserves)
    (hneed : x_in < x_reserves / y_reserves * y_in) :
    Element_Pricing_Model.calc_lp_out_given_tokens_in x_in y_in x_reserves y_reserves
        total_supply
      = (x_in, x_in / (x_reserves / y_reserves), x_in * total_supply / x_reserves) ∧
    x_in * total_supply / x_reserves
      < x_reserves / y_reserves * y_in * total_supply / x_reserves := by
  constructor
  · unfold Element_Pricing_Model.calc_lp_out_given_tokens_in
    rw [if_neg hts.ne', if_pos hneed]
  · have h1 : x_in * total_supply < x_reserves / y_reserves * y_in * total_supply :=
      mul_lt_mul_of_pos_right hneed hts
    exact (div_lt_div_iff_of_pos_right hx).mpr h1

/-- Witness for C9 at `x_in = 1`, `y_in = 1`, `x_reserves = 2`,
`y_reserves = 1`, `total_supply = 3`. -/
theorem calc_lp_out_asymmetric_fallback_witness :
    (0:ℝ) < 3 ∧ (0:ℝ) < 2 ∧ (0:ℝ) < 1 ∧ (1:ℝ) < 2 / 1 * 1 ∧
    Element_Pricing_Model.calc_lp_out_given_tokens_in 1 1 2 1 3
      = (1, 1 / (2 / 1), 1 * 3 / 2) ∧
    (1:ℝ) * 3 / 2 < 2 / 1 * 1 * 3 / 2 := by
  have h := calc_lp_out_asymmetric_fallback 1 1 2 1 3 (by norm_num) (by norm_num)
    (by norm_num) (by norm_num)
  exact ⟨by norm_num, by norm_num, by norm_num, by norm_num, h.1, h.2⟩

/-- C6 counterexample: with only the positivity conditions of the claim
(positive reserves, total supply, `t` in `(0,1)`, positive `c` and `u`), the
spot price can exceed `1`: at `x_reserves = 10`, `y_reserves = 1`,
`total_supply = 1`, `t = 1/2`, `u = c = 1`,
`Element_Pricing_Model.calc_spot_price` returns `sqrt 5 > 1`. -/
theorem calc_spot_price_gt_one_counterexample :
    (0:ℝ) < 10 ∧ (0:ℝ) < 1 ∧ (0:ℝ) < 1/2 ∧ (1:ℝ)/2 < 1 ∧
    1 < Element_Pricing_Model.calc_spot_price 10 1 1 (1/2) 1 1 := by
  refine ⟨by norm_num, by norm_num, by norm_num, by norm_num, ?_⟩
  unfold Element_Pricing_Model.calc_spot_price
  rw [show ((1:ℝ) + 1) / 10 = 1/5 by norm_num]
  have h2 : ((1:ℝ)/5) ^ ((1:ℝ)/2) < 1 :=
    Real.rpow_lt_one (by norm_num) (by norm_num) (by norm_num)
  have h3 : 0 < ((1:ℝ)/5) ^ ((1:ℝ)/2) := Real.rpow_pos_of_pos (by norm_num) _
  exact one_lt_one_div h3 h2

/-- C6 amended: with validity additionally requiring the (weighted) base-side
reserves not to exceed the fyt-side reserves — `x <= y + s` for the Element
model, `u * x <= c * (y + s)` for the YieldSpace model, and
`mu * (z - zeta) <= y` for `calc_spot_price_local` — the spot price satisfies
`0 < spot_price <= 1`. -/
theorem calc_spot_price_bounds (x y s t u c μ z ζ yb τ : ℝ) :
    (0 < x → 0 < t → t < 1 → x ≤ y + s →
      0 < Element_Pricing_Model.calc_spot_price x y s t u c ∧
        Element_Pricing_Model.calc_spot_price x y s t u c ≤ 1) ∧
    (0 < x → 0 < c → 0 < u → 0 < t → t < 1 → u * x ≤ c * (y + s) →
      0 < YieldsSpacev2_Pricing_model.calc_spot_price x y s t c u ∧
        YieldsSpacev2_Pricing_model.calc_spot_price x y s t c u ≤ 1) ∧
    (0 < μ → ζ < z → 0 < yb → 0 < τ → τ < 1 → μ * (z - ζ) ≤ yb →
      0 < LPandArb.calc_spot_price_local μ z ζ yb τ ∧
        LPandArb.calc_spot_price_local μ z ζ yb τ ≤ 1) := by
  refine ⟨fun hx ht ht1 hord => ?_, fun hx hc hu ht ht1 hord => ?_,
    fun hμ hz hyb hτ hτ1 hord => ?_⟩
  · unfold Element_Pricing_Model.calc_spot_price
    have hB : (1:ℝ) ≤ (y + s) / x := (one_le_div hx).mpr hord
    have hB0 : (0:ℝ) < (y + s) / x := lt_of_lt_of_le one_pos hB
    have hBt : (1:ℝ) ≤ ((y + s) / x) ^ t := by
      calc (1:ℝ) = (1:ℝ) ^ t := (Real.one_rpow t).symm
        _ ≤ ((y + s) / x) ^ t := Real.rpow_le_rpow (by norm_num) hB ht.le
    have hBt0 : (0:ℝ) < ((y + s) / x) ^ t := Real.rpow_pos_of_pos hB0 t
    exact ⟨by positivity, (div_le_one hBt0).mpr hBt⟩
  · unfold YieldsSpacev2_Pricing_model.calc_spot_price
    have hux : (0:ℝ) < u * x := by positivity
    have hB : (1:ℝ) ≤ c * (y + s) / (u * x) := (one_le_div hux).mpr hord
    have hB0 : (0:ℝ) < c * (y + s) / (u * x) := lt_of_lt_of_le one_pos hB
    have hBt : (1:ℝ) ≤ (c * (y + s) / (u * x)) ^ t := by
      calc (1:ℝ) = (1:ℝ) ^ t := (Real.one_rpow t).symm
        _ ≤ (c * (y + s) / (u * x)) ^ t := Real.rpow_le_rpow (by norm_num) hB ht.le
    have hBt0 : (0:ℝ) < (c * (y + s) / (u * x)) ^ t := Real.rpow_pos_of_pos hB0 t
    exact ⟨by positivity, (div_le_one hBt0).mpr hBt⟩
  · unfold LPandArb.calc_spot_price_local
    have hzz : (0:ℝ) < z - ζ := sub_pos.mpr hz
    have hq0 : (0:ℝ) < μ * (z - ζ) / yb := by positivity
    have hq1 : μ * (z - ζ) / yb ≤ 1 := (div_le_one hyb).mpr hord
    exact ⟨Real.rpow_pos_of_pos hq0 τ, Real.rpow_le_one hq0.le hq1 hτ.le⟩

/-- Witness for C6 (amended) at concrete valid states of all three
functions. -/
theorem calc_spot_price_bounds_witness :
    ((0:ℝ) < 1 ∧ (0:ℝ) < 1/2 ∧ (1:ℝ)/2 < 1 ∧ (1:ℝ) ≤ 1 + 1) ∧
    ((1:ℝ) * 1 ≤ 1 * (1 + 1)) ∧
    ((1:ℝ) < 2 ∧ (1:ℝ) * (2 - 1) ≤ 1) ∧
    (0 < Element_Pricing_Model.calc_spot_price 1 1 1 (1/2) 1 1 ∧
      Element_Pricing_Model.calc_spot_price 1 1 1 (1/2) 1 1 ≤ 1) ∧
    (0 < YieldsSpacev2_Pricing_model.calc_spot_price 1 1 1 (1/2) 1 1 ∧
      YieldsSpacev2_Pricing_model.calc_spot_price 1 1 1 (1/2) 1 1 ≤ 1) ∧
    (0 < LPandArb.calc_spot_price_local 1 2 1 1 (1/2) ∧
      LPandArb.calc_spot_price_local 1 2 1 1 (1/2) ≤ 1) := by
  have h := calc_spot_price_bounds 1 1 1 (1/2) 1 1 1 2 1 1 (1/2)
  refine ⟨⟨by norm_num, by norm_num, by norm_num, by norm_num⟩, by norm_num,
    ⟨by norm_num, by norm_num⟩, ?_, ?_, ?_⟩
  · exact h.1 (by norm_num) (by norm_num) (by norm_num) (by norm_num)
  · exact h.2.1 (by norm_num) (by norm_num) (by norm_num) (by norm_num) (by norm_num)
      (by norm_num)
  · exact h.2.2 (by norm_num) (by norm_num) (by norm_num) (by norm_num) (by norm_num)
      (by norm_num)

/-- Helper: the fee clamp `if fee/in_ < 5/100/100 then in_*5/100/100 else fee`
of the MinFee model yields at least `in_ * 5/100/100` and exactly the floor
when the organic fee is below it. -/
theorem fee_clamp_floor (in_ F : ℝ) (hin : 0 < in_) :
    in_ * 5 / 100 / 100 ≤ (if F / in_ < 5 / 100 / 100 then in_ * 5 / 100 / 100 else F) ∧
    (F < in_ * 5 / 100 / 100 →
      (if F / in_ < 5 / 100 / 100 then in_ * 5 / 100 / 100 else F) = in_ * 5 / 100 / 100) := by
  by_cases hc : F / in_ < 5 / 100 / 100
  · rw [if_pos hc]
    exact ⟨le_refl _, fun _ => rfl⟩
  · rw [if_neg hc]
    have h2 : (5:ℝ) / 100 / 100 ≤ F / in_ := not_lt.mp hc
    have h3 : (5:ℝ) / 100 / 100 * in_ ≤ F := (le_div_iff₀ hin).mp h2
    have h4 : in_ * 5 / 100 / 100 ≤ F := by
      have : in_ * 5 / 100 / 100 = 5 / 100 / 100 * in_ := by ring
      linarith
    exact ⟨h4, fun hlt => absurd hlt (not_lt.mpr h4)⟩

/-- C4: Minimum-fee floor.  For every input `in_ > 0` (and any fee rate and
reserve state), `YieldsSpacev2_Pricing_model_MinFee.calc_out_given_in`
returns a fee of at least `in_ * 5/100/100`; when the organically computed
curve fee is below `in_ * 5/100/100` the returned fee equals
`in_ * 5/100/100`; and `with_fee = without_fee - fee`, in both the
`token_out = base` and `token_out = fyt` branches. -/
theorem minfee_calc_out_given_in_fee_floor (in_ rin rout g t c u : ℝ) (tok : Token)
    (hin : 0 < in_) :
    in_ * 5 / 100 / 100 ≤
      (YieldsSpacev2_Pricing_model_MinFee.calc_out_given_in in_ rin rout tok g t c u).fee ∧
    (YieldsSpacev2_Pricing_model_MinFee.calc_out_given_in in_ rin rout tok g t c u).with_fee =
      (YieldsSpacev2_Pricing_model_MinFee.calc_out_given_in in_ rin rout tok g t c u).without_fee
      - (YieldsSpacev2_Pricing_model_MinFee.calc_out_given_in in_ rin rout tok g t c u).fee ∧
    (match tok with
      | Token.base =>
        (in_ -
            (YieldsSpacev2_Pricing_model_MinFee.calc_out_given_in in_ rin rout tok
              g t c u).without_fee) * g < in_ * 5 / 100 / 100 →
          (YieldsSpacev2_Pricing_model_MinFee.calc_out_given_in in_ rin rout tok g t c u).fee
            = in_ * 5 / 100 / 100
      | Token.fyt =>
        ((YieldsSpacev2_Pricing_model_MinFee.calc_out_given_in in_ rin rout tok
              g t c u).without_fee - in_) * g < in_ * 5 / 100 / 100 →
          (YieldsSpacev2_Pricing_model_MinFee.calc_out_given_in in_ rin rout tok g t c u).fee
            = in_ * 5 / 100 / 100) := by
  cases tok <;> simp only [YieldsSpacev2_Pricing_model_MinFee.calc_out_given_in] <;>
    exact ⟨(fee_clamp_floor in_ _ hin).1, trivial, fun hlt => (fee_clamp_floor in_ _ hin).2 hlt⟩

/-- Witness for C4 at `in_ = 1`, `g = 0` (organic fee `0`, strictly below the
floor `1 * 5/100/100`), `token_out = base`. -/
theorem minfee_calc_out_given_in_fee_floor_witness :
    (0:ℝ) < 1 ∧
    (1 - (YieldsSpacev2_Pricing_model_MinFee.calc_out_given_in 1 2 3 Token.base
        0 (1/2) 1 1).without_fee) * 0 < 1 * 5 / 100 / 100 ∧
    1 * 5 / 100 / 100 ≤
      (YieldsSpacev2_Pricing_model_MinFee.calc_out_given_in 1 2 3 Token.base 0 (1/2) 1 1).fee ∧
    (YieldsSpacev2_Pricing_model_MinFee.calc_out_given_in 1 2 3 Token.base 0 (1/2) 1 1).fee
      = 1 * 5 / 100 / 100 := by
  have h := minfee_calc_out_given_in_fee_floor 1 2 3 0 (1/2) 1 1 Token.base (by norm_num)
  have hlt : (1 - (YieldsSpacev2_Pricing_model_MinFee.calc_out_given_in 1 2 3 Token.base
      0 (1/2) 1 1).without_fee) * 0 < 1 * 5 / 100 / 100 := by
    rw [mul_zero]
    norm_num
  exact ⟨by norm_num, hlt, h.1, h.2.2 hlt⟩

/-- C10: `Market.swap` is a state no-op when the computed fee is not
positive.  For every market, amount and handled `(direction, token_in,
token_out)` combination: a quote is always produced; if the fee is `≤ 0` the
market state is returned unchanged in every field; and when the fee is
positive the reserves, order/volume counters and slippage/fee accumulators
are updated exactly as in the corresponding branch. -/
theorem swap_state_frame (m : Market) (amount : ℝ) :
    (∀ (d : Direction) (tin tout : Token) (q : Quote) (m2 : Market),
        Market.swap m amount d tin tout = some (q, m2) → q.fee ≤ 0 → m2 = m) ∧
    (∀ (q : Quote) (m2 : Market),
        Market.swap m amount Direction.din Token.fyt Token.base = some (q, m2) →
        0 < q.fee → m2 = { m with
          x := m.x - q.with_fee
          y := m.y + amount
          cum_x_slippage := m.cum_x_slippage + |q.without_fee_or_slippage - q.without_fee|
          cum_y_fees := m.cum_y_fees + q.fee
          x_orders := m.x_orders + 1
          x_volume := m.x_volume + q.with_fee }) ∧
    (∀ (q : Quote) (m2 : Market),
        Market.swap m amount Direction.din Token.base Token.fyt = some (q, m2) →
        0 < q.fee → m2 = { m with
          x := m.x + amount
          y := m.y - q.with_fee
          cum_y_slippage := m.cum_y_slippage + |q.without_fee_or_slippage - q.without_fee|
          cum_x_fees := m.cum_x_fees + q.fee
          y_orders := m.y_orders + 1
          y_volume := m.y_volume + q.with_fee }) ∧
    (∀ (q : Quote) (m2 : Market),
        Market.swap m amount Direction.dout Token.fyt Token.base = some (q, m2) →
        0 < q.fee → m2 = { m with
          x := m.x - q.with_fee
          y := m.y + amount
          cum_x_slippage := m.cum_x_slippage + |q.without_fee_or_slippage - q.without_fee|
          cum_x_fees := m.cum_x_fees + q.fee
          x_orders := m.x_orders + 1
          x_volume := m.x_volume + q.with_fee }) ∧
    (∀ (q : Quote) (m2 : Market),
        Market.swap m amount Direction.dout Token.base Token.fyt = some (q, m2) →
        0 < q.fee → m2 = { m with
          x := m.x + amount
          y := m.y - q.with_fee
          cum_y_slippage := m.cum_y_slippage + |q.without_fee_or_slippage - q.without_fee|
          cum_y_fees := m.cum_y_fees + q.fee
          y_orders := m.y_orders + 1
          y_volume := m.y_volume + q.with_fee }) ∧
    (∀ d : Direction, (Market.swap m amount d Token.fyt Token.base).isSome = true ∧
        (Market.swap m amount d Token.base Token.fyt).isSome = true) := by
  refine ⟨?_, ?_, ?_, ?_, ?_, ?_⟩
  · intro d tin tout q m2 h hfee
    cases d <;> cases tin <;> cases tout <;> simp only [Market.swap] at h <;>
      [skip; skip; skip; skip; skip; skip; skip; skip] <;> try exact Option.noConfusion h
    all_goals {
      split at h
      · simp only [Option.some.injEq, Prod.mk.injEq] at h
        obtain ⟨hq, hm2⟩ := h
        subst hq
        exact absurd hfee (not_le.mpr (by assumption))
      · simp only [Option.some.injEq, Prod.mk.injEq] at h
        obtain ⟨hq, hm2⟩ := h
        exact hm2.symm
    }
  · intro q m2 h hf
    simp only [Market.swap] at h
    split at h
    · simp only [Option.some.injEq, Prod.mk.injEq] at h
      obtain ⟨hq, hm2⟩ := h
      subst hq
      exact hm2.symm
    · simp only [Option.some.injEq, Prod.mk.injEq] at h
      obtain ⟨hq, hm2⟩ := h
      subst hq
      exact absurd hf (by assumption)
  · intro q m2 h hf
    simp only [Market.swap] at h
    split at h
    · simp only [Option.some.injEq, Prod.mk.injEq] at h
      obtain ⟨hq, hm2⟩ := h
      subst hq
      exact hm2.symm
    · simp only [Option.some.injEq, Prod.mk.injEq] at h
      obtain ⟨hq, hm2⟩ := h
      subst hq
      exact absurd hf (by assumption)
  · intro q m2 h hf
    simp only [Market.swap] at h
    split at h
    · simp only [Option.some.injEq, Prod.mk.injEq] at h
      obtain ⟨hq, hm2⟩ := h
      subst hq
      exact hm2.symm
    · simp only [Option.some.injEq, Prod.mk.injEq] at h
      obtain ⟨hq, hm2⟩ := h
      subst hq
      exact absurd hf (by assumption)
  · intro q m2 h hf
    simp only [Market.swap] at h
    split at h
    · simp only [Option.some.injEq, Prod.mk.injEq] at h
      obtain ⟨hq, hm2⟩ := h
      subst hq
      exact hm2.symm
    · simp only [Option.some.injEq, Prod.mk.injEq] at h
      obtain ⟨hq, hm2⟩ := h
      subst hq
      exact absurd hf (by assumption)
  · intro d
    cases d <;> constructor <;> (simp only [Market.swap]; split <;> rfl)

/-- Helper: on `marketW`, a `din fyt -> base` quote for amount `0` is the
zero quote. -/
theorem calc_in_given_out_zero_on_marketW :
    Element_Pricing_Model.calc_in_given_out 0 (1 + 1) 1 Token.fyt (1/2) (1/2) 1 1
      = ⟨0, 0, 0, 0⟩ := by
  have e1 : ((1:ℝ) - 0) ^ ((1:ℝ) - 1/2) = 1 := by norm_num [Real.one_rpow]
  have e2 : ((1:ℝ)) ^ ((1:ℝ) - 1/2) = 1 := Real.one_rpow _
  have e4 : (((1:ℝ) + 1) ^ ((1:ℝ) - 1/2)) ^ ((1:ℝ) / (1 - 1/2)) = 1 + 1 := by
    rw [← Real.rpow_mul (by norm_num : (0:ℝ) ≤ 1 + 1)]
    norm_num [Real.rpow_one]
  simp only [Element_Pricing_Model.calc_in_given_out, Quote.mk.injEq]
  rw [e1, e2]
  rw [show ((1:ℝ) + 1) ^ ((1:ℝ) - 1/2) + 1 - 1 = ((1:ℝ) + 1) ^ ((1:ℝ) - 1/2) by ring]
  rw [e4]
  norm_num

/-- Helper: swapping amount `0` on `marketW` yields the zero quote and leaves
the market unchanged. -/
theorem swap_zero_on_marketW :
    Market.swap marketW 0 Direction.din Token.fyt Token.base = some (⟨0, 0, 0, 0⟩, marketW) := by
  simp only [Market.swap, marketW, Market.init, PModel.calc_in_given_out]
  rw [calc_in_given_out_zero_on_marketW]
  norm_num

/-- Witness for C10: on `marketW` with amount `0` the computed fee is `0 ≤ 0`
and the swap returns the market unchanged. -/
theorem swap_state_frame_witness :
    (Quote.mk 0 0 0 0).fee ≤ 0 ∧
    (Market.swap marketW 0 Direction.din Token.fyt Token.base).map Prod.snd = some marketW := by
  have hframe : marketW = marketW :=
    (swap_state_frame marketW 0).1 Direction.din Token.fyt Token.base ⟨0, 0, 0, 0⟩ marketW
      swap_zero_on_marketW (le_refl 0)
  refine ⟨le_refl 0, ?_⟩
  rw [swap_zero_on_marketW]
  exact congrArg some hframe

/-- Helper: the single-pass rescale is exact in real arithmetic — scaling
both reserves by `target / value` makes the market value equal the target
whenever the pre-scale value is nonzero. -/
theorem scale_up_exact (x0 y0 mp sp target : ℝ) (hV : x0 * mp + y0 * mp * sp ≠ 0) :
    x0 * (target / (x0 * mp + y0 * mp * sp)) * mp
      + y0 * (target / (x0 * mp + y0 * mp * sp)) * mp * sp = target := by
  field_simp
  ring

/-- C8: Liquidity scale-up.  Whenever the pre-scale market value is nonzero
(in particular whenever the intermediate reserves are positive),
`calc_liquidity` returns `(x_reserves, y_reserves, liquidity)` with
`liquidity = x_reserves * market_price + y_reserves * market_price *
spot_price` exactly equal to `target_liquidity`, for both the Element and the
YieldSpace pricing models; the 1e-6-relative-error requirement of the §8
scenario follows from the exact equality. -/
theorem calc_liquidity_hits_target (target mp apy d ts c u : ℝ)
    (hE : Element_Pricing_Model.calc_x_reserves apy
        (target / mp / 2 / (1 - apy / 100 * (d / (365 * ts)))) d ts * mp
        + target / mp / 2 / (1 - apy / 100 * (d / (365 * ts))) * mp
          * Element_Pricing_Model.calc_spot_price_from_apy apy d ≠ 0)
    (hY : YieldsSpacev2_Pricing_model.calc_x_reserves apy
        (target / mp / 2 / (1 - apy / 100 * (d / (365 * ts)))) d ts c u * mp
        + target / mp / 2 / (1 - apy / 100 * (d / (365 * ts))) * mp
          * YieldsSpacev2_Pricing_model.calc_spot_price_from_apy apy d ≠ 0) :
    ((Element_Pricing_Model.calc_liquidity target mp apy d ts c u).2.2 = target ∧
      (Element_Pricing_Model.calc_liquidity target mp apy d ts c u).1 * mp
        + (Element_Pricing_Model.calc_liquidity target mp apy d ts c u).2.1 * mp
          * Element_Pricing_Model.calc_spot_price_from_apy apy d = target) ∧
    ((YieldsSpacev2_Pricing_model.calc_liquidity target mp apy d ts c u).2.2 = target ∧
      (YieldsSpacev2_Pricing_model.calc_liquidity target mp apy d ts c u).1 * mp
        + (YieldsSpacev2_Pricing_model.calc_liquidity target mp apy d ts c u).2.1 * mp
          * YieldsSpacev2_Pricing_model.calc_spot_price_from_apy apy d = target) := by
  constructor
  · constructor <;>
      (simp only [Element_Pricing_Model.calc_liquidity]; exact scale_up_exact _ _ mp _ target hE)
  · constructor <;>
      (simp only [YieldsSpacev2_Pricing_model.calc_liquidity];
        exact scale_up_exact _ _ mp _ target hY)

/-- Helper: the base `-1 / (X - 1)` of the reserves formula exceeds `1` when
`0 < X < 1`, and so does any positive rpow power of it. -/
theorem arb_base_rpow_gt_one (X e : ℝ) (h1 : 0 < X) (h2 : X < 1) (he : 0 < e) :
    1 < (-1 / (X - 1)) ^ e := by
  have heq : (-1 : ℝ) / (X - 1) = 1 / (1 - X) := by
    rw [show X - 1 = -(1 - X) by ring, div_neg, neg_div, neg_neg]
  rw [heq]
  have hpos : (0:ℝ) < 1 / (1 - X) := by
    have h3 : (0:ℝ) < 1 - X := by linarith
    positivity
  exact (Real.one_lt_rpow_iff_of_pos hpos).mpr
    (Or.inl ⟨one_lt_one_div (by linarith) (by linarith), he⟩)

/-- Helper: positivity of `Element_Pricing_Model.calc_x_reserves` when the
APY-maturity product is in `(0,1)` and the stretched time is positive. -/
theorem element_calc_x_reserves_pos (APY y d ts : ℝ) (hy : 0 < y)
    (h1 : 0 < APY / 100 * (d / 365)) (h2 : APY / 100 * (d / 365) < 1)
    (ht : 0 < d / (365 * ts)) :
    0 < Element_Pricing_Model.calc_x_reserves APY y d ts := by
  unfold Element_Pricing_Model.calc_x_reserves
  have hQ := arb_base_rpow_gt_one (APY / 100 * (d / 365)) (1 / (d / (365 * ts))) h1 h2
    (one_div_pos.mpr ht)
  exact div_pos (by linarith) (by linarith)

/-- Helper: positivity of `YieldsSpacev2_Pricing_model.calc_x_reserves`. -/
theorem ys_calc_x_reserves_pos (APY y d ts c u : ℝ) (hy : 0 < y) (hc : 0 < c)
    (hcu : c < u * ((-1 / (APY / 100 * (d / 365) - 1)) ^ (1 / (d / (365 * ts))))) :
    0 < YieldsSpacev2_Pricing_model.calc_x_reserves APY y d ts c u := by
  unfold YieldsSpacev2_Pricing_model.calc_x_reserves
  exact div_pos (by positivity) (by linarith)

/-- Witness for C8: the §8 scenario `calc_liquidity(100000, 1, 0.05, 365,
calc_time_stretch(5), 1, 1)` returns liquidity exactly `100000` (hence within
`1e-6` relative error), for both pricing models. -/
theorem calc_liquidity_hits_target_witness :
    (Element_Pricing_Model.calc_liquidity 100000 1 0.05 365
        (Element_Pricing_Model.calc_time_stretch 5) 1 1).2.2 = 100000 ∧
    |(Element_Pricing_Model.calc_liquidity 100000 1 0.05 365
        (Element_Pricing_Model.calc_time_stretch 5) 1 1).2.2 - 100000| ≤ 1e-6 * 100000 ∧
    (YieldsSpacev2_Pricing_model.calc_liquidity 100000 1 0.05 365
        (Element_Pricing_Model.calc_time_stretch 5) 1 1).2.2 = 100000 := by
  set ts := Element_Pricing_Model.calc_time_stretch 5 with hts
  have hts_val : ts = 3.09396 / (0.02789 * 5) := rfl
  have htpos : 0 < (365:ℝ) / (365 * ts) := by rw [hts_val]; norm_num
  have h1 : 0 < (0.05:ℝ) / 100 * (365 / 365) := by norm_num
  have h2 : (0.05:ℝ) / 100 * (365 / 365) < 1 := by norm_num
  have hy0 : 0 < (100000:ℝ) / 1 / 2 / (1 - 0.05 / 100 * (365 / (365 * ts))) := by
    rw [hts_val]; norm_num
  have hspE : 0 < Element_Pricing_Model.calc_spot_price_from_apy 0.05 365 := by
    unfold Element_Pricing_Model.calc_spot_price_from_apy
    norm_num
  have hspY : 0 < YieldsSpacev2_Pricing_model.calc_spot_price_from_apy 0.05 365 := by
    unfold YieldsSpacev2_Pricing_model.calc_spot_price_from_apy
    norm_num
  have hx0 : 0 < Element_Pricing_Model.calc_x_reserves 0.05
      (100000 / 1 / 2 / (1 - 0.05 / 100 * (365 / (365 * ts)))) 365 ts :=
    element_calc_x_reserves_pos 0.05 _ 365 ts hy0 h1 h2 htpos
  have hx0Y : 0 < YieldsSpacev2_Pricing_model.calc_x_reserves 0.05
      (100000 / 1 / 2 / (1 - 0.05 / 100 * (365 / (365 * ts)))) 365 ts 1 1 := by
    refine ys_calc_x_reserves_pos 0.05 _ 365 ts 1 1 hy0 (by norm_num) ?_
    rw [one_mul]
    exact arb_base_rpow_gt_one (0.05 / 100 * (365 / 365)) (1 / (365 / (365 * ts))) h1 h2
      (by positivity)
  have hE : Element_Pricing_Model.calc_x_reserves 0.05
      (100000 / 1 / 2 / (1 - 0.05 / 100 * (365 / (365 * ts)))) 365 ts * 1
      + 100000 / 1 / 2 / (1 - 0.05 / 100 * (365 / (365 * ts))) * 1
        * Element_Pricing_Model.calc_spot_price_from_apy 0.05 365 ≠ 0 := by
    have : 0 < Element_Pricing_Model.calc_x_reserves 0.05
        (100000 / 1 / 2 / (1 - 0.05 / 100 * (365 / (365 * ts)))) 365 ts * 1
        + 100000 / 1 / 2 / (1 - 0.05 / 100 * (365 / (365 * ts))) * 1
          * Element_Pricing_Model.calc_spot_price_from_apy 0.05 365 := by
      have := mul_pos hy0 hspE
      nlinarith
    exact this.ne'
  have hY : YieldsSpacev2_Pricing_model.calc_x_reserves 0.05
      (100000 / 1 / 2 / (1 - 0.05 / 100 * (365 / (365 * ts)))) 365 ts 1 1 * 1
      + 100000 / 1 / 2 / (1 - 0.05 / 100 * (365 / (365 * ts))) * 1
        * YieldsSpacev2_Pricing_model.calc_spot_price_from_apy 0.05 365 ≠ 0 := by
    have : 0 < YieldsSpacev2_Pricing_model.calc_x_reserves 0.05
        (100000 / 1 / 2 / (1 - 0.05 / 100 * (365 / (365 * ts)))) 365 ts 1 1 * 1
        + 100000 / 1 / 2 / (1 - 0.05 / 100 * (365 / (365 * ts))) * 1
          * YieldsSpacev2_Pricing_model.calc_spot_price_from_apy 0.05 365 := by
      have := mul_pos hy0 hspY
      nlinarith
    exact this.ne'
  have h := calc_liquidity_hits_target 100000 1 0.05 365 ts 1 1 hE hY
  refine ⟨h.1.1, ?_, h.2.1⟩
  rw [h.1.1]
  norm_num

/-- Helper (tangent line of the concave power): for `0 < x`, `-x ≤ h` and an
exponent `a` in `[0,1]`, `(x+h)^a ≤ x^a + a*x^(a-1)*h`. -/
theorem rpow_tangent_le (x h a : ℝ) (hx : 0 < x) (hh : -x ≤ h)
    (ha0 : 0 ≤ a) (ha1 : a ≤ 1) :
    (x + h) ^ a ≤ x ^ a + a * x ^ (a - 1) * h := by
  have hs : -1 ≤ h / x := by
    rw [neg_le, ← neg_div, div_le_one hx]
    linarith
  have key : (1 + h / x) ^ a ≤ 1 + a * (h / x) :=
    rpow_one_add_le_one_add_mul_self hs ha0 ha1
  have hxh : x + h = x * (1 + h / x) := by field_simp
  have h1x : (0:ℝ) ≤ 1 + h / x := by linarith
  rw [hxh, Real.mul_rpow hx.le h1x]
  have hxa : (0:ℝ) < x ^ a := Real.rpow_pos_of_pos hx a
  have hsub : x ^ (a - 1) = x ^ a / x := by
    rw [Real.rpow_sub hx, Real.rpow_one]
  calc x ^ a * (1 + h / x) ^ a ≤ x ^ a * (1 + a * (h / x)) :=
        mul_le_mul_of_nonneg_left key hxa.le
    _ = x ^ a + a * x ^ (a - 1) * h := by
        rw [hsub]
        field_simp
        ring

/-- Helper (core curve inequality, fyt in / base out): trading `dy` fyt into
the fyt side of the invariant `s*w^a + y^a = k` (weighted coordinates,
`s = c/u`, `w = u*z`) pays out at most `dy` on the base side when the weighted
base reserve does not exceed the fyt reserve and the trade stays in the
curve's domain. -/
theorem curve_out_le_in (a s w y dy : ℝ) (ha : 0 < a) (ha1 : a < 1) (hs : 0 < s)
    (hw : 0 < w) (hy : 0 < y) (hdy : 0 < dy) (hwy : w ≤ y)
    (hE : 0 ≤ w ^ a - 1 / s * ((y + dy) ^ a - y ^ a)) :
    s * (w - (w ^ a - 1 / s * ((y + dy) ^ a - y ^ a)) ^ (1 / a)) ≤ dy := by
  have key : w - dy / s ≤ (w ^ a - 1 / s * ((y + dy) ^ a - y ^ a)) ^ (1 / a) := by
    rcases le_or_lt (w - dy / s) 0 with hneg | hpos
    · exact le_trans hneg (Real.rpow_nonneg hE _)
    · have h1 : (w - dy / s) ^ a ≤ w ^ a - 1 / s * ((y + dy) ^ a - y ^ a) := by
        have htany : (y + dy) ^ a ≤ y ^ a + a * y ^ (a - 1) * dy :=
          rpow_tangent_le y dy a hy (by linarith) ha.le ha1.le
        have htanw : (w + -(dy / s)) ^ a ≤ w ^ a + a * w ^ (a - 1) * -(dy / s) :=
          rpow_tangent_le w (-(dy / s)) a hw (by linarith) ha.le ha1.le
        rw [show w + -(dy / s) = w - dy / s from by ring] at htanw
        have hmono : y ^ (a - 1) ≤ w ^ (a - 1) :=
          Real.rpow_le_rpow_of_nonpos hw hwy (by linarith)
        have hchain : a * y ^ (a - 1) * dy ≤ a * w ^ (a - 1) * dy :=
          mul_le_mul_of_nonneg_right (mul_le_mul_of_nonneg_left hmono ha.le) hdy.le
        have e1 : 1 / s * ((y + dy) ^ a - y ^ a) ≤ 1 / s * (a * y ^ (a - 1) * dy) :=
          mul_le_mul_of_nonneg_left (by linarith) (by positivity)
        have e2 : 1 / s * (a * y ^ (a - 1) * dy) ≤ 1 / s * (a * w ^ (a - 1) * dy) :=
          mul_le_mul_of_nonneg_left hchain (by positivity)
        have e3 : w ^ a + a * w ^ (a - 1) * -(dy / s)
            = w ^ a - 1 / s * (a * w ^ (a - 1) * dy) := by ring
        linarith
      have h2 := Real.rpow_le_rpow (Real.rpow_nonneg hpos.le a) h1
        (le_of_lt (by positivity : (0:ℝ) < 1 / a))
      rwa [← Real.rpow_mul hpos.le, mul_one_div, div_self ha.ne', Real.rpow_one] at h2
  have h3 : w - (w ^ a - 1 / s * ((y + dy) ^ a - y ^ a)) ^ (1 / a) ≤ dy / s := by
    linarith
  calc s * (w - (w ^ a - 1 / s * ((y + dy) ^ a - y ^ a)) ^ (1 / a)) ≤ s * (dy / s) :=
        mul_le_mul_of_nonneg_left h3 hs.le
    _ = dy := by field_simp

/-- Helper (core curve inequality, base in / fyt out): paying `s*δ` base into
the base side of the invariant pays out at least `s*δ` fyt when, even after
the trade, the weighted base reserve stays below the fyt reserve and the
trade stays in the curve's domain. -/
theorem curve_out_ge_in (a s w y δ : ℝ) (ha : 0 < a) (ha1 : a < 1) (hs : 0 < s)
    (hw : 0 < w) (hδ : 0 < δ) (hord : w + δ ≤ y - s * δ)
    (hF : 0 ≤ y ^ a - s * ((w + δ) ^ a - w ^ a)) :
    s * δ ≤ y - (y ^ a - s * ((w + δ) ^ a - w ^ a)) ^ (1 / a) := by
  have hsδ : 0 < s * δ := mul_pos hs hδ
  have hy2 : 0 < y - s * δ := lt_of_lt_of_le (by positivity) hord
  have hy : 0 < y := by linarith
  have h1 : y ^ a - s * ((w + δ) ^ a - w ^ a) ≤ (y - s * δ) ^ a := by
    have htany : (y - s * δ + s * δ) ^ a
        ≤ (y - s * δ) ^ a + a * (y - s * δ) ^ (a - 1) * (s * δ) :=
      rpow_tangent_le (y - s * δ) (s * δ) a hy2 (by linarith) ha.le ha1.le
    rw [sub_add_cancel] at htany
    have htanw : (w + δ + -δ) ^ a ≤ (w + δ) ^ a + a * (w + δ) ^ (a - 1) * -δ :=
      rpow_tangent_le (w + δ) (-δ) a (by positivity) (by linarith) ha.le ha1.le
    rw [show w + δ + -δ = w from by ring] at htanw
    have hmono : (y - s * δ) ^ (a - 1) ≤ (w + δ) ^ (a - 1) :=
      Real.rpow_le_rpow_of_nonpos (by positivity) hord (by linarith)
    have c1 : a * (y - s * δ) ^ (a - 1) * (s * δ) ≤ a * (w + δ) ^ (a - 1) * (s * δ) :=
      mul_le_mul_of_nonneg_right (mul_le_mul_of_nonneg_left hmono ha.le) hsδ.le
    have c2 : a * (w + δ) ^ (a - 1) * (s * δ) = s * (a * (w + δ) ^ (a - 1) * δ) := by ring
    have c3 : s * (a * (w + δ) ^ (a - 1) * δ) ≤ s * ((w + δ) ^ a - w ^ a) :=
      mul_le_mul_of_nonneg_left (by linarith) hs.le
    linarith
  have h2 : (y ^ a - s * ((w + δ) ^ a - w ^ a)) ^ (1 / a) ≤ y - s * δ := by
    have h := Real.rpow_le_rpow hF h1 (le_of_lt (by positivity : (0:ℝ) < 1 / a))
    rwa [← Real.rpow_mul hy2.le, mul_one_div, div_self ha.ne', Real.rpow_one] at h
  linarith

/-- Helper (core curve inequality, base in for fyt out, inverse direction):
receiving `dy` fyt from the fyt side costs at most `dy` base when, even after
the trade, the weighted base reserve stays below the fyt reserve. -/
theorem curve_in_le_out (a s w y dy : ℝ) (ha : 0 < a) (ha1 : a < 1) (hs : 0 < s)
    (hw : 0 < w) (hdy : 0 < dy) (hord : w + dy / s ≤ y - dy) :
    s * ((w ^ a + 1 / s * (y ^ a - (y - dy) ^ a)) ^ (1 / a) - w) ≤ dy := by
  have hyd : 0 < y - dy := lt_of_lt_of_le (by positivity) hord
  have h1 : w ^ a + 1 / s * (y ^ a - (y - dy) ^ a) ≤ (w + dy / s) ^ a := by
    have htany : (y - dy + dy) ^ a ≤ (y - dy) ^ a + a * (y - dy) ^ (a - 1) * dy :=
      rpow_tangent_le (y - dy) dy a hyd (by linarith) ha.le ha1.le
    rw [sub_add_cancel] at htany
    have htanw : (w + dy / s + -(dy / s)) ^ a
        ≤ (w + dy / s) ^ a + a * (w + dy / s) ^ (a - 1) * -(dy / s) :=
      rpow_tangent_le (w + dy / s) (-(dy / s)) a (by positivity)
        (by have h0 : (0:ℝ) < dy / s := div_pos hdy hs; linarith) ha.le ha1.le
    rw [show w + dy / s + -(dy / s) = w from by ring] at htanw
    have hmono : (y - dy) ^ (a - 1) ≤ (w + dy / s) ^ (a - 1) :=
      Real.rpow_le_rpow_of_nonpos (by positivity) hord (by linarith)
    have c1 : a * (y - dy) ^ (a - 1) * dy ≤ a * (w + dy / s) ^ (a - 1) * dy :=
      mul_le_mul_of_nonneg_right (mul_le_mul_of_nonneg_left hmono ha.le) hdy.le
    have e1 : 1 / s * (y ^ a - (y - dy) ^ a) ≤ 1 / s * (a * (y - dy) ^ (a - 1) * dy) :=
      mul_le_mul_of_nonneg_left (by linarith) (by positivity)
    have e2 : 1 / s * (a * (y - dy) ^ (a - 1) * dy)
        ≤ 1 / s * (a * (w + dy / s) ^ (a - 1) * dy) :=
      mul_le_mul_of_nonneg_left c1 (by positivity)
    have e3 : w ^ a + a * (w + dy / s) ^ (a - 1) * -(dy / s)
        = w ^ a - 1 / s * (a * (w + dy / s) ^ (a - 1) * dy) := by ring
    linarith
  have hE0 : 0 ≤ w ^ a + 1 / s * (y ^ a - (y - dy) ^ a) := by
    have hmono2 : (y - dy) ^ a ≤ y ^ a := Real.rpow_le_rpow hyd.le (by linarith) ha.le
    have hwa : (0:ℝ) ≤ w ^ a := Real.rpow_nonneg hw.le a
    have : (0:ℝ) ≤ 1 / s * (y ^ a - (y - dy) ^ a) :=
      mul_nonneg (by positivity) (by linarith)
    linarith
  have h2 : (w ^ a + 1 / s * (y ^ a - (y - dy) ^ a)) ^ (1 / a) ≤ w + dy / s := by
    have h := Real.rpow_le_rpow hE0 h1 (le_of_lt (by positivity : (0:ℝ) < 1 / a))
    rwa [← Real.rpow_mul (by positivity : (0:ℝ) ≤ w + dy / s), mul_one_div,
      div_self ha.ne', Real.rpow_one] at h
  have h3 : (w ^ a + 1 / s * (y ^ a - (y - dy) ^ a)) ^ (1 / a) - w ≤ dy / s := by linarith
  calc s * ((w ^ a + 1 / s * (y ^ a - (y - dy) ^ a)) ^ (1 / a) - w) ≤ s * (dy / s) :=
        mul_le_mul_of_nonneg_left h3 hs.le
    _ = dy := by field_simp

/-- Helper (core curve inequality, fyt in for base out, inverse direction):
receiving `s*δ` base from the base side costs at least `s*δ` fyt when the
weighted base reserve does not exceed the fyt reserve. -/
theorem curve_in_ge_out (a s w y δ : ℝ) (ha : 0 < a) (ha1 : a < 1) (hs : 0 < s)
    (hδ : 0 < δ) (hδw : δ ≤ w) (hwy : w ≤ y) (hy : 0 < y) :
    s * δ ≤ (y ^ a + s * (w ^ a - (w - δ) ^ a)) ^ (1 / a) - y := by
  have hw : 0 < w := lt_of_lt_of_le hδ hδw
  have h1 : (y + s * δ) ^ a ≤ y ^ a + s * (w ^ a - (w - δ) ^ a) := by
    have htany : (y + s * δ) ^ a ≤ y ^ a + a * y ^ (a - 1) * (s * δ) :=
      rpow_tangent_le y (s * δ) a hy (by have h0 : 0 < s * δ := mul_pos hs hδ; linarith)
        ha.le ha1.le
    have htanw : (w + -δ) ^ a ≤ w ^ a + a * w ^ (a - 1) * -δ :=
      rpow_tangent_le w (-δ) a hw (by linarith) ha.le ha1.le
    rw [show w + -δ = w - δ from by ring] at htanw
    have hmono : y ^ (a - 1) ≤ w ^ (a - 1) :=
      Real.rpow_le_rpow_of_nonpos hw hwy (by linarith)
    have c1 : a * y ^ (a - 1) * (s * δ) ≤ a * w ^ (a - 1) * (s * δ) :=
      mul_le_mul_of_nonneg_right (mul_le_mul_of_nonneg_left hmono ha.le) (by positivity)
    have c2 : a * w ^ (a - 1) * (s * δ) = s * (a * w ^ (a - 1) * δ) := by ring
    have c3 : s * (a * w ^ (a - 1) * δ) ≤ s * (w ^ a - (w - δ) ^ a) :=
      mul_le_mul_of_nonneg_left (by linarith) hs.le
    linarith
  have hys : (0:ℝ) ≤ y + s * δ := by positivity
  have h2 : y + s * δ ≤ (y ^ a + s * (w ^ a - (w - δ) ^ a)) ^ (1 / a) := by
    have h0 : (0:ℝ) ≤ (y + s * δ) ^ a := Real.rpow_nonneg hys a
    have h := Real.rpow_le_rpow h0 h1 (le_of_lt (by positivity : (0:ℝ) < 1 / a))
    rwa [← Real.rpow_mul hys, mul_one_div, div_self ha.ne', Real.rpow_one] at h
  linarith

/-- Helper: Element `calc_out_given_in`, base out — the curve output does not
exceed the fyt paid in. -/
theorem element_out_base_wf_le (in_ rin rout g t c u : ℝ)
    (hin : 0 < in_) (hrin : 0 < rin) (hrout : 0 < rout) (ht : 0 < t) (ht1 : t < 1)
    (hord : rout ≤ rin)
    (hdom : 0 ≤ rin ^ (1 - t) + rout ^ (1 - t) - (rin + in_) ^ (1 - t)) :
    (Element_Pricing_Model.calc_out_given_in in_ rin rout Token.base g t c u).without_fee
      ≤ in_ := by
  simp only [Element_Pricing_Model.calc_out_given_in]
  have harg : rin ^ (1 - t) + rout ^ (1 - t) - (rin + in_) ^ (1 - t)
      = rout ^ (1 - t) - 1 / 1 * ((rin + in_) ^ (1 - t) - rin ^ (1 - t)) := by ring
  rw [harg] at hdom ⊢
  have h := curve_out_le_in (1 - t) 1 rout rin in_ (by linarith) (by linarith) one_pos
    hrout hrin hin hord hdom
  rw [one_mul] at h
  exact h

/-- Helper: Element `calc_out_given_in`, fyt out — the curve output is at
least the base paid in. -/
theorem element_out_fyt_wf_ge (in_ rin rout g t c u : ℝ)
    (hin : 0 < in_) (hrin : 0 < rin) (hrout : 0 < rout) (ht : 0 < t) (ht1 : t < 1)
    (hord : rin + in_ ≤ rout - in_)
    (hdom : 0 ≤ rin ^ (1 - t) + rout ^ (1 - t) - (rin + in_) ^ (1 - t)) :
    in_ ≤
      (Element_Pricing_Model.calc_out_given_in in_ rin rout Token.fyt g t c u).without_fee := by
  simp only [Element_Pricing_Model.calc_out_given_in]
  have harg : rin ^ (1 - t) + rout ^ (1 - t) - (rin + in_) ^ (1 - t)
      = rout ^ (1 - t) - 1 * ((rin + in_) ^ (1 - t) - rin ^ (1 - t)) := by ring
  rw [harg] at hdom ⊢
  have h := curve_out_ge_in (1 - t) 1 rin rout in_ (by linarith) (by linarith) one_pos
    hrin hin (by linarith) hdom
  rw [one_mul] at h
  exact h

/-- Helper: Element `calc_in_given_out`, base in — the curve input does not
exceed the fyt received. -/
theorem element_in_base_wf_le (out rin rout g t c u : ℝ)
    (hout : 0 < out) (hrin : 0 < rin) (hrout : 0 < rout) (ht : 0 < t) (ht1 : t < 1)
    (hord : rin + out ≤ rout - out) :
    (Element_Pricing_Model.calc_in_given_out out rin rout Token.base g t c u).without_fee
      ≤ out := by
  simp only [Element_Pricing_Model.calc_in_given_out]
  have harg : rin ^ (1 - t) + rout ^ (1 - t) - (rout - out) ^ (1 - t)
      = rin ^ (1 - t) + 1 / 1 * (rout ^ (1 - t) - (rout - out) ^ (1 - t)) := by ring
  rw [harg]
  have h := curve_in_le_out (1 - t) 1 rin rout out (by linarith) (by linarith) one_pos
    hrin hout (by rw [div_one]; linarith)
  rw [one_mul] at h
  exact h

/-- Helper: Element `calc_in_given_out`, fyt in — the curve input is at least
the base received. -/
theorem element_in_fyt_wf_ge (out rin rout g t c u : ℝ)
    (hout : 0 < out) (hrin : 0 < rin) (hrout : 0 < rout) (ht : 0 < t) (ht1 : t < 1)
    (hord1 : out ≤ rout) (hord2 : rout ≤ rin) :
    out ≤
      (Element_Pricing_Model.calc_in_given_out out rin rout Token.fyt g t c u).without_fee := by
  simp only [Element_Pricing_Model.calc_in_given_out]
  have harg : rin ^ (1 - t) + rout ^ (1 - t) - (rout - out) ^ (1 - t)
      = rin ^ (1 - t) + 1 * (rout ^ (1 - t) - (rout - out) ^ (1 - t)) := by ring
  rw [harg]
  have h := curve_in_ge_out (1 - t) 1 rout rin out (by linarith) (by linarith) one_pos
    hout hord1 hord2 hrin
  rw [one_mul] at h
  exact h

/-- Helper: YieldSpace `calc_out_given_in`, base out — the curve output does
not exceed the fyt paid in, under the `mu`-weighted reserve ordering. -/
theorem ys_out_base_wf_le (in_ rin rout g t c u : ℝ)
    (hin : 0 < in_) (hrin : 0 < rin) (hrout : 0 < rout) (ht : 0 < t) (ht1 : t < 1)
    (hc : 0 < c) (hu : 0 < u)
    (hord : u * (rout / c) ≤ rin)
    (hdom : 0 ≤ (u * (rout / c)) ^ (1 - t)
        - 1 / (c / u) * ((rin + in_) ^ (1 - t) - rin ^ (1 - t))) :
    (YieldsSpacev2_Pricing_model.calc_out_given_in in_ rin rout Token.base g t c u).without_fee
      ≤ in_ := by
  simp only [YieldsSpacev2_Pricing_model.calc_out_given_in]
  have hcu : c / u ≠ 0 := ne_of_gt (div_pos hc hu)
  have harg : (c / u * (u * (rout / c)) ^ (1 - t) + rin ^ (1 - t) - (rin + in_) ^ (1 - t))
        / (c / u)
      = (u * (rout / c)) ^ (1 - t) - 1 / (c / u) * ((rin + in_) ^ (1 - t) - rin ^ (1 - t)) := by
    field_simp
    ring
  rw [harg]
  have houter : ∀ X : ℝ, (rout / c - 1 / u * X) * c = c / u * (u * (rout / c) - X) := by
    intro X
    field_simp
    ring
  rw [houter]
  exact curve_out_le_in (1 - t) (c / u) (u * (rout / c)) rin in_ (by linarith) (by linarith)
    (div_pos hc hu) (by positivity) hrin hin hord hdom

/-- Helper: YieldSpace `calc_out_given_in`, fyt out — the curve output is at
least the base paid in, under the post-trade weighted reserve ordering. -/
theorem ys_out_fyt_wf_ge (in_ rin rout g t c u : ℝ)
    (hin : 0 < in_) (hrin : 0 < rin) (hrout : 0 < rout) (ht : 0 < t) (ht1 : t < 1)
    (hc : 0 < c) (hu : 0 < u)
    (hord : u * (rin / c) + u * (in_ / c) ≤ rout - c / u * (u * (in_ / c)))
    (hdom : 0 ≤ rout ^ (1 - t)
        - c / u * ((u * (rin / c) + u * (in_ / c)) ^ (1 - t) - (u * (rin / c)) ^ (1 - t))) :
    in_ ≤
      (YieldsSpacev2_Pricing_model.calc_out_given_in in_ rin rout Token.fyt g t c u).without_fee := by
  simp only [YieldsSpacev2_Pricing_model.calc_out_given_in]
  have harg : c / u * (u * (rin / c)) ^ (1 - t) + rout ^ (1 - t)
        - c / u * (u * (rin / c) + u * (in_ / c)) ^ (1 - t)
      = rout ^ (1 - t)
        - c / u * ((u * (rin / c) + u * (in_ / c)) ^ (1 - t) - (u * (rin / c)) ^ (1 - t)) := by
    ring
  rw [harg]
  have h := curve_out_ge_in (1 - t) (c / u) (u * (rin / c)) rout (u * (in_ / c))
    (by linarith) (by linarith) (div_pos hc hu) (by positivity) (by positivity) hord hdom
  rw [show c / u * (u * (in_ / c)) = in_ from by field_simp; ring] at h
  exact h

/-- Helper: YieldSpace `calc_in_given_out`, base in — the curve input does
not exceed the fyt received, under the post-trade weighted reserve
ordering. -/
theorem ys_in_base_wf_le (out rin rout g t c u : ℝ)
    (hout : 0 < out) (hrin : 0 < rin) (hrout : 0 < rout) (ht : 0 < t) (ht1 : t < 1)
    (hc : 0 < c) (hu : 0 < u)
    (hord : u * (rin / c) + out / (c / u) ≤ rout - out) :
    (YieldsSpacev2_Pricing_model.calc_in_given_out out rin rout Token.base g t c u).without_fee
      ≤ out := by
  simp only [YieldsSpacev2_Pricing_model.calc_in_given_out]
  have hcu : c / u ≠ 0 := ne_of_gt (div_pos hc hu)
  have harg : (c / u * (u * (rin / c)) ^ (1 - t) + rout ^ (1 - t) - (rout - out) ^ (1 - t))
        / (c / u)
      = (u * (rin / c)) ^ (1 - t) + 1 / (c / u) * (rout ^ (1 - t) - (rout - out) ^ (1 - t)) := by
    field_simp
    ring
  rw [harg]
  have houter : ∀ X : ℝ, (1 / u * X - rin / c) * c = c / u * (X - u * (rin / c)) := by
    intro X
    field_simp
    ring
  rw [houter]
  exact curve_in_le_out (1 - t) (c / u) (u * (rin / c)) rout out (by linarith) (by linarith)
    (div_pos hc hu) (by positivity) hout hord

/-- Helper: YieldSpace `calc_in_given_out`, fyt in — the curve input is at
least the base received, under the weighted reserve ordering. -/
theorem ys_in_fyt_wf_ge (out rin rout g t c u : ℝ)
    (hout : 0 < out) (hrin : 0 < rin) (hrout : 0 < rout) (ht : 0 < t) (ht1 : t < 1)
    (hc : 0 < c) (hu : 0 < u)
    (hord1 : u * (out / c) ≤ u * (rout / c)) (hord2 : u * (rout / c) ≤ rin) :
    out ≤
      (YieldsSpacev2_Pricing_model.calc_in_given_out out rin rout Token.fyt g t c u).without_fee := by
  simp only [YieldsSpacev2_Pricing_model.calc_in_given_out]
  have harg : c / u * (u * (rout / c)) ^ (1 - t) + rin ^ (1 - t)
        - c / u * (u * (rout / c) - u * (out / c)) ^ (1 - t)
      = rin ^ (1 - t)
        + c / u * ((u * (rout / c)) ^ (1 - t) - (u * (rout / c) - u * (out / c)) ^ (1 - t)) := by
    ring
  rw [harg]
  have h := curve_in_ge_out (1 - t) (c / u) (u * (rout / c)) rin (u * (out / c))
    (by linarith) (by linarith) (div_pos hc hu) (by positivity) hord1 hord2 hrin
  rw [show c / u * (u * (out / c)) = out from by field_simp; ring] at h
  exact h

/-- Helper: fee monotonicity of Element `calc_out_given_in`. -/
theorem element_out_mono (in_ rin rout g t c u : ℝ) (tok : Token)
    (hval : ElementOutValid in_ rin rout g t tok) :
    (Element_Pricing_Model.calc_out_given_in in_ rin rout tok g t c u).with_fee ≤
      (Element_Pricing_Model.calc_out_given_in in_ rin rout tok g t c u).without_fee := by
  obtain ⟨hin, hrin, hrout, ht, ht1, hg, hdom, hm⟩ := hval
  cases tok
  · have hle := element_out_base_wf_le in_ rin rout g t c u hin hrin hrout ht ht1 hm hdom
    simp only [Element_Pricing_Model.calc_out_given_in] at hle ⊢
    exact sub_le_self _ (mul_nonneg (by linarith) hg)
  · have hge := element_out_fyt_wf_ge in_ rin rout g t c u hin hrin hrout ht ht1 hm hdom
    simp only [Element_Pricing_Model.calc_out_given_in] at hge ⊢
    exact sub_le_self _ (mul_nonneg (by linarith) hg)

/-- Helper: fee monotonicity of Element `calc_in_given_out`. -/
theorem element_in_mono (out rin rout g t c u : ℝ) (tok : Token)
    (hval : ElementInValid out rin rout g t tok) :
    (Element_Pricing_Model.calc_in_given_out out rin rout tok g t c u).without_fee ≤
      (Element_Pricing_Model.calc_in_given_out out rin rout tok g t c u).with_fee := by
  obtain ⟨hout, hrin, hrout, ht, ht1, hg, hm⟩ := hval
  cases tok
  · have hle := element_in_base_wf_le out rin rout g t c u hout hrin hrout ht ht1 hm
    simp only [Element_Pricing_Model.calc_in_given_out] at hle ⊢
    exact le_add_of_nonneg_right (mul_nonneg (by linarith) hg)
  · have hge := element_in_fyt_wf_ge out rin rout g t c u hout hrin hrout ht ht1 hm.1 hm.2
    simp only [Element_Pricing_Model.calc_in_given_out] at hge ⊢
    exact le_add_of_nonneg_right (mul_nonneg (by linarith) hg)

/-- Helper: fee monotonicity of YieldSpace `calc_out_given_in`. -/
theorem ys_out_mono (in_ rin rout g t c u : ℝ) (tok : Token)
    (hval : YSOutValid in_ rin rout g t c u tok) :
    (YieldsSpacev2_Pricing_model.calc_out_given_in in_ rin rout tok g t c u).with_fee ≤
      (YieldsSpacev2_Pricing_model.calc_out_given_in in_ rin rout tok g t c u).without_fee := by
  obtain ⟨hin, hrin, hrout, ht, ht1, hg, hc, hu, hm⟩ := hval
  cases tok
  · have hle := ys_out_base_wf_le in_ rin rout g t c u hin hrin hrout ht ht1 hc hu hm.1 hm.2
    simp only [YieldsSpacev2_Pricing_model.calc_out_given_in] at hle ⊢
    exact sub_le_self _ (mul_nonneg (by linarith) hg)
  · have hge := ys_out_fyt_wf_ge in_ rin rout g t c u hin hrin hrout ht ht1 hc hu hm.1 hm.2
    simp only [YieldsSpacev2_Pricing_model.calc_out_given_in] at hge ⊢
    exact sub_le_self _ (mul_nonneg (by linarith) hg)

/-- Helper: fee monotonicity of YieldSpace `calc_in_given_out`. -/
theorem ys_in_mono (out rin rout g t c u : ℝ) (tok : Token)
    (hval : YSInValid out rin rout g t c u tok) :
    (YieldsSpacev2_Pricing_model.calc_in_given_out out rin rout tok g t c u).without_fee ≤
      (YieldsSpacev2_Pricing_model.calc_in_given_out out rin rout tok g t c u).with_fee := by
  obtain ⟨hout, hrin, hrout, ht, ht1, hg, hc, hu, hm⟩ := hval
  cases tok
  · have hle := ys_in_base_wf_le out rin rout g t c u hout hrin hrout ht ht1 hc hu hm
    simp only [YieldsSpacev2_Pricing_model.calc_in_given_out] at hle ⊢
    exact le_add_of_nonneg_right (mul_nonneg (by linarith) hg)
  · have hge := ys_in_fyt_wf_ge out rin rout g t c u hout hrin hrout ht ht1 hc hu hm.1 hm.2
    simp only [YieldsSpacev2_Pricing_model.calc_in_given_out] at hge ⊢
    exact le_add_of_nonneg_right (mul_nonneg (by linarith) hg)

/-- Helper: the MinFee `calc_in_given_out` is the same function as the
YieldSpace one (the source duplicates the code verbatim and applies no fee
floor in this direction). -/
theorem minfee_in_eq_ys (out rin rout : ℝ) (tok : Token) (g t c u : ℝ) :
    YieldsSpacev2_Pricing_model_MinFee.calc_in_given_out out rin rout tok g t c u
      = YieldsSpacev2_Pricing_model.calc_in_given_out out rin rout tok g t c u := rfl

/-- Helper: fee monotonicity of MinFee `calc_out_given_in`: the clamped fee
is nonnegative for any positive input, so the fee never increases the amount
out. -/
theorem minfee_out_mono (in_ rin rout g t c u : ℝ) (tok : Token)
    (hval : YSOutValid in_ rin rout g t c u tok) :
    (YieldsSpacev2_Pricing_model_MinFee.calc_out_given_in in_ rin rout tok g t c u).with_fee ≤
      (YieldsSpacev2_Pricing_model_MinFee.calc_out_given_in in_ rin rout tok g t c u).without_fee := by
  obtain ⟨hin, hrin, hrout, ht, ht1, hg, hc, hu, hm⟩ := hval
  cases tok <;>
    (simp only [YieldsSpacev2_Pricing_model_MinFee.calc_out_given_in]
     refine sub_le_self _ ?_
     split
     · positivity
     · next hcond =>
         have h2 := not_lt.mp hcond
         have h3 := (le_div_iff₀ hin).mp h2
         nlinarith)

/-- C5: Fee monotonicity.  For every valid reserve state (positivity,
`t` in `(0,1)`, fee rate `g >= 0`, the no-arbitrage reserve ordering of the
traded direction and the trade staying inside the curve's real domain — see
`ElementOutValid`, `ElementInValid`, `YSOutValid`, `YSInValid`) and both
token directions, every pricing-model variant returns
`with_fee <= without_fee` from `calc_out_given_in` and
`with_fee >= without_fee` from `calc_in_given_out`. -/
theorem fee_monotonicity :
    (∀ (in_ rin rout g t c u : ℝ) (tok : Token), ElementOutValid in_ rin rout g t tok →
      (Element_Pricing_Model.calc_out_given_in in_ rin rout tok g t c u).with_fee ≤
        (Element_Pricing_Model.calc_out_given_in in_ rin rout tok g t c u).without_fee) ∧
    (∀ (out rin rout g t c u : ℝ) (tok : Token), ElementInValid out rin rout g t tok →
      (Element_Pricing_Model.calc_in_given_out out rin rout tok g t c u).without_fee ≤
        (Element_Pricing_Model.calc_in_given_out out rin rout tok g t c u).with_fee) ∧
    (∀ (in_ rin rout g t c u : ℝ) (tok : Token), YSOutValid in_ rin rout g t c u tok →
      (YieldsSpacev2_Pricing_model.calc_out_given_in in_ rin rout tok g t c u).with_fee ≤
        (YieldsSpacev2_Pricing_model.calc_out_given_in in_ rin rout tok g t c u).without_fee) ∧
    (∀ (out rin rout g t c u : ℝ) (tok : Token), YSInValid out rin rout g t c u tok →
      (YieldsSpacev2_Pricing_model.calc_in_given_out out rin rout tok g t c u).without_fee ≤
        (YieldsSpacev2_Pricing_model.calc_in_given_out out rin rout tok g t c u).with_fee) ∧
    (∀ (in_ rin rout g t c u : ℝ) (tok : Token), YSOutValid in_ rin rout g t c u tok →
      (YieldsSpacev2_Pricing_model_MinFee.calc_out_given_in in_ rin rout tok g t c u).with_fee ≤
        (YieldsSpacev2_Pricing_model_MinFee.calc_out_given_in in_ rin rout tok g t c u).without_fee) ∧
    (∀ (out rin rout g t c u : ℝ) (tok : Token), YSInValid out rin rout g t c u tok →
      (YieldsSpacev2_Pricing_model_MinFee.calc_in_given_out out rin rout tok g t c u).without_fee ≤
        (YieldsSpacev2_Pricing_model_MinFee.calc_in_given_out out rin rout tok g t c u).with_fee) :=
  ⟨fun in_ rin rout g t c u tok hval => element_out_mono in_ rin rout g t c u tok hval,
    fun out rin rout g t c u tok hval => element_in_mono out rin rout g t c u tok hval,
    fun in_ rin rout g t c u tok hval => ys_out_mono in_ rin rout g t c u tok hval,
    fun out rin rout g t c u tok hval => ys_in_mono out rin rout g t c u tok hval,
    fun in_ rin rout g t c u tok hval => minfee_out_mono in_ rin rout g t c u tok hval,
    fun out rin rout g t c u tok hval => by
      rw [minfee_in_eq_ys]
      exact ys_in_mono out rin rout g t c u tok hval⟩

/-- Witness for C5 at concrete valid states: Element `calc_in_given_out` with
fyt in, and Element `calc_out_given_in` with base out. -/
theorem fee_monotonicity_witness :
    ElementInValid 1 3 2 (1/2) (1/2) Token.fyt ∧
    (Element_Pricing_Model.calc_in_given_out 1 3 2 Token.fyt (1/2) (1/2) 1 1).without_fee ≤
      (Element_Pricing_Model.calc_in_given_out 1 3 2 Token.fyt (1/2) (1/2) 1 1).with_fee ∧
    ElementOutValid 1 2 1 (1/2) (1/2) Token.base ∧
    (Element_Pricing_Model.calc_out_given_in 1 2 1 Token.base (1/2) (1/2) 1 1).with_fee ≤
      (Element_Pricing_Model.calc_out_given_in 1 2 1 Token.base (1/2) (1/2) 1 1).without_fee := by
  have hv1 : ElementInValid 1 3 2 (1/2) (1/2) Token.fyt := by
    simp only [ElementInValid]
    norm_num
  have hv2 : ElementOutValid 1 2 1 (1/2) (1/2) Token.base := by
    simp only [ElementOutValid]
    refine ⟨by norm_num, by norm_num, by norm_num, by norm_num, by norm_num, by norm_num,
      ?_, by norm_num⟩
    have h1 : ((1:ℝ)) ^ ((1:ℝ) - 1/2) = 1 := Real.one_rpow _
    have h2 : ((3:ℝ)) ^ ((1:ℝ) - 1/2) ≤ 2 := by
      calc ((3:ℝ)) ^ ((1:ℝ) - 1/2) ≤ ((4:ℝ)) ^ ((1:ℝ) - 1/2) :=
            Real.rpow_le_rpow (by norm_num) (by norm_num) (by norm_num)
        _ = 2 := by
            rw [show (4:ℝ) = 2 ^ ((2:ℕ):ℝ) from by rw [Real.rpow_natCast]; norm_num,
              ← Real.rpow_mul (by norm_num : (0:ℝ) ≤ 2)]
            norm_num [Real.rpow_one]
    have h3 : (1:ℝ) ≤ ((2:ℝ)) ^ ((1:ℝ) - 1/2) := by
      calc (1:ℝ) = (1:ℝ) ^ ((1:ℝ) - 1/2) := (Real.one_rpow _).symm
        _ ≤ ((2:ℝ)) ^ ((1:ℝ) - 1/2) :=
            Real.rpow_le_rpow (by norm_num) (by norm_num) (by norm_num)
    rw [h1]
    linarith
  exact ⟨hv1, fee_monotonicity.2.1 1 3 2 (1/2) (1/2) 1 1 Token.fyt hv1,
    hv2, fee_monotonicity.1 1 2 1 (1/2) (1/2) 1 1 Token.base hv2⟩

end Sim
